import Mathlib

/-!
# Verification of the shaft dependency-injection core

This file gives a shallow embedding of the graph-resolution engine of the
shaft dependency-injection container (package `core`: the graph data model,
the toposort planner, the execution-plan step records, and the runner), and
proves properties of that embedding.

Modelling conventions:
* `reflect.Type` is modelled by a numeric type identity (`Nat`); only type
  equality matters to the engine.
* `reflect.Value` is modelled by `RValue`: an invalid (zero) value, an opaque
  base value tagged by a string, or a slice of values.
* Go maps are modelled by association lists; lookup of an absent key yields
  `Option.none` (or the zero value where the Go code uses the zero value).
* Pointers to `executionParam` buffers are modelled by indices into an
  explicit store (`List (List RValue)`) threaded through planner and runner.
* The mutually recursive planner functions can diverge in Go (there is no
  cycle check on the group/decorator paths), so every planner function takes
  a fuel argument; a `none` result means the computation was cut off (in Go:
  non-termination or a runtime panic such as an out-of-range index).
* Host actions (the opaque `value interface{}` of a graph node) are modelled
  by a small deep-embedded behaviour language sufficient for the repository's
  option builders: an ordinary action that appends an event to a log and
  writes constant outputs (Provide/Supply/Invoke), a failing action, and a
  stack action that writes its outputs, invokes the continuation (which
  drains the remaining plan, as in `core.Stack`), and then logs a teardown
  event.
-/

set_option maxRecDepth 8192

/-- Model of `reflect.Value`: invalid zero value, opaque base value, or slice. -/
inductive RValue where
  | invalid
  | base (s : String)
  | slice (elems : List RValue)

mutual

/-- Display string of a value (debugging aid). -/
def RValue.str : RValue → String
  | RValue.invalid => "_"
  | RValue.base s => s
  | RValue.slice xs => "[" ++ RValue.strList xs ++ "]"

/-- Display string of a value list (debugging aid). -/
def RValue.strList : List RValue → String
  | [] => ""
  | x :: xs => RValue.str x ++ ";" ++ RValue.strList xs

end

instance : Repr RValue := ⟨fun v _ => Std.Format.text v.str⟩

mutual

/-- Boolean equality on values (DecidableEq cannot be derived for the
nested inductive). -/
def RValue.beq : RValue → RValue → Bool
  | RValue.invalid, RValue.invalid => true
  | RValue.base s, RValue.base t => s == t
  | RValue.slice xs, RValue.slice ys => RValue.beqList xs ys
  | _, _ => false

/-- Boolean equality on value lists. -/
def RValue.beqList : List RValue → List RValue → Bool
  | [], [] => true
  | x :: xs, y :: ys => RValue.beq x y && RValue.beqList xs ys
  | _, _ => false

end

mutual

theorem RValue.beq_iff : ∀ a b : RValue, RValue.beq a b = true ↔ a = b
  | RValue.invalid, RValue.invalid => by simp [RValue.beq]
  | RValue.invalid, RValue.base _ => by simp [RValue.beq]
  | RValue.invalid, RValue.slice _ => by simp [RValue.beq]
  | RValue.base _, RValue.invalid => by simp [RValue.beq]
  | RValue.base s, RValue.base t => by simp [RValue.beq]
  | RValue.base _, RValue.slice _ => by simp [RValue.beq]
  | RValue.slice _, RValue.invalid => by simp [RValue.beq]
  | RValue.slice _, RValue.base _ => by simp [RValue.beq]
  | RValue.slice xs, RValue.slice ys => by
    simp [RValue.beq, RValue.beqList_iff xs ys]

theorem RValue.beqList_iff : ∀ xs ys : List RValue, RValue.beqList xs ys = true ↔ xs = ys
  | [], [] => by simp [RValue.beqList]
  | [], _ :: _ => by simp [RValue.beqList]
  | _ :: _, [] => by simp [RValue.beqList]
  | x :: xs, y :: ys => by
    simp [RValue.beqList, RValue.beq_iff x y, RValue.beqList_iff xs ys]

end

instance : DecidableEq RValue := fun a b => decidable_of_iff _ (RValue.beq_iff a b)

/-- Association-list lookup, modelling Go map indexing with `ok` flag. -/
def alookup {κ α : Type} [DecidableEq κ] : List (κ × α) → κ → Option α
  | [], _ => none
  | (k, v) :: rest, key => if k = key then some v else alookup rest key

/-- Association-list update, modelling Go map assignment. -/
def aset {κ α : Type} [DecidableEq κ] : List (κ × α) → κ → α → List (κ × α)
  | [], key, v => [(key, v)]
  | (k, w) :: rest, key, v =>
    if k = key then (k, v) :: rest else (k, w) :: aset rest key v

/-- Association-list removal, modelling Go `delete`. -/
def aerase {κ α : Type} [DecidableEq κ] : List (κ × α) → κ → List (κ × α)
  | [], _ => []
  | (k, w) :: rest, key =>
    if k = key then aerase rest key else (k, w) :: aerase rest key

/-- Insertion into the pending set (`tp.pending[id] = struct{}{}`). -/
def pinsert (p : List Nat) (id : Nat) : List Nat :=
  if id ∈ p then p else p ++ [id]

/-- Removal from the pending set (`delete(tp.pending, id)`). -/
def perase (p : List Nat) (id : Nat) : List Nat :=
  p.filter (fun x => x ≠ id)

/-- `graphNodeKey`: the index of the graph maps (type identity, name, group flag). -/
structure GraphNodeKey where
  typ : Nat
  name : String
  group : Bool
deriving DecidableEq, Repr

/-- `Spec`: declared shape of one port on a node (key plus decorate flag). -/
structure Spec where
  typ : Nat
  name : String
  group : Bool
  decorate : Bool
deriving DecidableEq, Repr

/-- `extractGraphKey`: drops the decorate flag of a spec. -/
def extractGraphKey (s : Spec) : GraphNodeKey :=
  { typ := s.typ, name := s.name, group := s.group }

/-- `graphNodeOutputSlot`: an output slot `(node id, output index)`. -/
structure GraphNodeOutputSlot where
  id : Nat
  index : Nat
deriving DecidableEq, Repr

/-- Behaviour of a host action, deep-embedded (see module docstring). -/
inductive ActBehavior where
  | act (log : Option String) (outs : List RValue)
  | failing (log : Option String) (msg : String)
  | stack (log : Option String) (outs : List RValue) (teardown : String)
deriving Repr

/-- `runAction`: the host action value stored on a node, with its formatter. -/
structure RunAction where
  format : Option String
  behavior : ActBehavior
deriving Repr

/-- `graphNode`: input specs, output specs, opaque action value, optional formatter. -/
structure GraphNode where
  input : List Spec
  output : List Spec
  value : RunAction
  format : Option String
deriving Repr

/-- `graphNode.String(id)`: formatter string, or `#<id>` when absent. -/
def GraphNode.displayString (g : GraphNode) (id : Nat) : String :=
  match g.format with
  | some s => s
  | none => "#" ++ toString id

/-- `graph`: node list plus the provide/decorate multimaps. -/
structure Graph where
  nodes : List GraphNode
  provide : List (GraphNodeKey × List GraphNodeOutputSlot)
  decorate : List (GraphNodeKey × List GraphNodeOutputSlot)
deriving Repr

/-- `newGraph()`. -/
def newGraph : Graph := { nodes := [], provide := [], decorate := [] }

/-- Slot list of a key in a multimap; absent key yields the empty list (Go nil slice). -/
def slotsOf (m : List (GraphNodeKey × List GraphNodeOutputSlot)) (k : GraphNodeKey) :
    List GraphNodeOutputSlot :=
  (alookup m k).getD []

/-- Append one slot to a key's list in a multimap (`m[key] = append(m[key], slot)`). -/
def appendSlot (m : List (GraphNodeKey × List GraphNodeOutputSlot)) (k : GraphNodeKey)
    (slot : GraphNodeOutputSlot) : List (GraphNodeKey × List GraphNodeOutputSlot) :=
  aset m k (slotsOf m k ++ [slot])

/-- Inner loop of `graph.insert`: route each output slot into provide or decorate. -/
def insertOutputs (id : Nat) : List Spec → Nat →
    List (GraphNodeKey × List GraphNodeOutputSlot) →
    List (GraphNodeKey × List GraphNodeOutputSlot) →
    (List (GraphNodeKey × List GraphNodeOutputSlot)) ×
    (List (GraphNodeKey × List GraphNodeOutputSlot))
  | [], _, provide, decorate => (provide, decorate)
  | item :: rest, index, provide, decorate =>
    let key := extractGraphKey item
    if item.decorate then
      insertOutputs id rest (index + 1) provide
        (appendSlot decorate key { id := id, index := index })
    else
      insertOutputs id rest (index + 1)
        (appendSlot provide key { id := id, index := index }) decorate

/-- `graph.insert`: append the node and update the provision indices. -/
def Graph.insert (g : Graph) (node : GraphNode) : Graph :=
  let id := g.nodes.length
  let maps := insertOutputs id node.output 0 g.provide g.decorate
  { nodes := g.nodes ++ [node], provide := maps.1, decorate := maps.2 }

/-- Build a graph by inserting a list of nodes in order. -/
def Graph.ofNodes (nodes : List GraphNode) : Graph :=
  nodes.foldl Graph.insert newGraph

/-- `executionCollect`: a collect descriptor `(buffer, index)`. A `none` buffer
models the nil `*executionParam` of the Go zero value `executionCollect{}`. -/
structure ExecutionCollect where
  result : Option Nat
  index : Nat
deriving DecidableEq, Repr

/-- The Go zero value `executionCollect{}` (nil result pointer). -/
def ExecutionCollect.zero : ExecutionCollect := { result := none, index := 0 }

/-- `executionNode`: the three step kinds of an execution plan. Buffer pointers
are modelled by store indices. -/
inductive ExecutionNode where
  | user (params : Nat) (result : Nat) (value : RunAction)
  | collectParam (items : List ExecutionCollect) (result : Nat)
  | collectGroup (items : List ExecutionCollect) (result : Nat)
deriving Repr

/-- The store of `executionParam` buffers (heap of value buffers). -/
abbrev Store := List (List RValue)

/-- Planner-internal errors and the error values of the core package
(`fmt.Errorf` values of the planner, `ErrDependency`, `ErrExecute`, and
host action errors). `ErrDependency` (`depWrap`) is defined by the source
but the provided code never constructs it. `panicDecorate` models the
planner's `panic("invalid uninitialized decorate")`. -/
inductive RunErr where
  | missing (key : GraphNodeKey)
  | ambiguous (key : GraphNodeKey)
  | cyclic (node : String) (key : GraphNodeKey)
  | panicDecorate
  | depWrap (node : String) (err : RunErr)
  | execWrap (node : String) (err : RunErr)
  | user (msg : String)
deriving DecidableEq, Repr

/-- `graphToposort`: planner working state, plus the explicit buffer store. -/
structure GraphToposort where
  outputs : List (Nat × Nat)
  grouped : List (GraphNodeKey × Nat)
  decorated : List (GraphNodeKey × ExecutionCollect)
  decorating : List (GraphNodeKey × ExecutionCollect)
  pending : List Nat
  result : List ExecutionNode
  store : Store
deriving Repr

/-- `newGraphToposort()`. -/
def newGraphToposort : GraphToposort :=
  { outputs := [], grouped := [], decorated := [], decorating := [],
    pending := [], result := [], store := [] }

/-- Allocate a fresh buffer (`&executionParam{...}`), returning its index. -/
def GraphToposort.alloc (tp : GraphToposort) (buf : List RValue) : Nat × GraphToposort :=
  (tp.store.length, { tp with store := tp.store ++ [buf] })

/-- Result type of a planner function: `none` is divergence/panic cutoff,
otherwise the threaded state and an error-or-value, as in Go's
multiple-return `(value, error)` convention. -/
abbrev PRes (α : Type) := Option (GraphToposort × Except RunErr α)

/-- Sequence a planner call, propagating an error (the `if err != nil` idiom). -/
def pbind {α β : Type} (x : PRes α) (f : GraphToposort → α → PRes β) : PRes β :=
  match x with
  | none => none
  | some (tp, Except.error e) => some (tp, Except.error e)
  | some (tp, Except.ok a) => f tp a

/-- Node display string used in the cyclic-dependency message
(`g.nodes[id].String(id)`); `none` on an invalid id (a Go panic). -/
def Graph.nodeString (g : Graph) (id : Nat) : Option String :=
  g.nodes[id]?.map (fun n => n.displayString id)

/-- Record the pending mark removal of `toposortGenerateGraphNodeID`
(the deferred `delete(tp.pending, id)`), on both exit paths. -/
def finishGenerateID (id : Nat) (r : GraphToposort × Except RunErr Nat) :
    GraphToposort × Except RunErr Nat :=
  match r with
  | (tp, Except.error e) => ({ tp with pending := perase tp.pending id }, Except.error e)
  | (tp, Except.ok params) =>
    ({ tp with pending := perase tp.pending id,
               outputs := aset tp.outputs id params }, Except.ok params)

mutual

/-- `toposortGenerateGraphNodeID`: memoised, pending-marked node scheduling. -/
def toposortGenerateGraphNodeID (g : Graph) : Nat → GraphToposort → Nat → PRes Nat
  | 0, _, _ => none
  | fuel + 1, tp, id =>
    match alookup tp.outputs id with
    | some params => some (tp, Except.ok params)
    | none =>
      match g.nodes[id]? with
      | none => none
      | some node =>
        (toposortGenerateGraphNode g fuel
            { tp with pending := pinsert tp.pending id } node).map
          (finishGenerateID id)

/-- `toposortGenerateSingle`: resolve a singleton key. -/
def toposortGenerateSingle (g : Graph) : Nat → GraphToposort → GraphNodeKey →
    PRes ExecutionCollect
  | 0, _, _ => none
  | fuel + 1, tp, item =>
    match slotsOf g.provide item with
    | [] => some (tp, Except.error (RunErr.missing item))
    | [outputSlot] =>
      if outputSlot.id ∈ tp.pending then
        match g.nodeString outputSlot.id with
        | none => none
        | some s => some (tp, Except.error (RunErr.cyclic s item))
      else
        pbind (toposortGenerateGraphNodeID g fuel tp outputSlot.id) (fun tp1 params =>
          some (tp1, Except.ok { result := some params, index := outputSlot.index }))
    | _ :: _ :: _ => some (tp, Except.error (RunErr.ambiguous item))

/-- `toposortGenerateGrouped`: group collect node generation. -/
def toposortGenerateGrouped (g : Graph) : Nat → GraphToposort → GraphNodeKey →
    PRes ExecutionCollect
  | 0, _, _ => none
  | fuel + 1, tp, group =>
    match alookup tp.grouped group with
    | some result => some (tp, Except.ok { result := some result, index := 0 })
    | none =>
      let alloc := tp.alloc [RValue.slice []]
      pbind (toposortGroupedLoop g fuel alloc.2 (slotsOf g.provide group) [])
        (fun tp2 items =>
          let tp3 := { tp2 with
            result := tp2.result ++ [ExecutionNode.collectGroup items alloc.1],
            grouped := aset tp2.grouped group alloc.1 }
          some (tp3, Except.ok { result := some alloc.1, index := 0 }))

/-- Provider loop of `toposortGenerateGrouped`. -/
def toposortGroupedLoop (g : Graph) : Nat → GraphToposort → List GraphNodeOutputSlot →
    List ExecutionCollect → PRes (List ExecutionCollect)
  | _, tp, [], acc => some (tp, Except.ok acc)
  | 0, _, _ :: _, _ => none
  | fuel + 1, tp, slot :: rest, acc =>
    pbind (toposortGenerateGraphNodeID g fuel tp slot.id) (fun tp1 params =>
      toposortGroupedLoop g fuel tp1 rest
        (acc ++ [{ result := some params, index := slot.index }]))

/-- `toposortGenerateBaseCollect`: base collect plus seeding of `decorating`. -/
def toposortGenerateBaseCollect (g : Graph) : Nat → GraphToposort → GraphNodeKey →
    PRes ExecutionCollect
  | 0, _, _ => none
  | fuel + 1, tp, key =>
    pbind (if key.group then toposortGenerateGrouped g fuel tp key
           else toposortGenerateSingle g fuel tp key) (fun tp1 baseCollect =>
      match slotsOf g.decorate key with
      | [] => some (tp1, Except.ok baseCollect)
      | _ :: _ =>
        match alookup tp1.decorated key with
        | some _ => some (tp1, Except.ok baseCollect)
        | none =>
          match alookup tp1.decorating key with
          | some _ => some (tp1, Except.ok baseCollect)
          | none =>
            some ({ tp1 with decorating := aset tp1.decorating key baseCollect },
              Except.ok baseCollect))

/-- `toposortGenerateCollect`: final collect for one input spec. Note that the
source discards the error of its base-collect call (`return executionCollect{},
nil`), continuing with the zero collect descriptor. -/
def toposortGenerateCollect (g : Graph) : Nat → GraphToposort → Spec →
    PRes ExecutionCollect
  | 0, _, _ => none
  | fuel + 1, tp, spec =>
    match toposortGenerateBaseCollect g fuel tp (extractGraphKey spec) with
    | none => none
    | some (tp1, Except.error _) => some (tp1, Except.ok ExecutionCollect.zero)
    | some (tp1, Except.ok baseCollect) =>
      if spec.decorate then
        match alookup tp1.decorating (extractGraphKey spec) with
        | some collect => some (tp1, Except.ok collect)
        | none => some (tp1, Except.error RunErr.panicDecorate)
      else
        match slotsOf g.decorate (extractGraphKey spec) with
        | [] => some (tp1, Except.ok baseCollect)
        | slot :: rest =>
          match alookup tp1.decorated (extractGraphKey spec) with
          | some decorated => some (tp1, Except.ok decorated)
          | none =>
            pbind (toposortDecorateLoop g fuel tp1 (extractGraphKey spec)
                (slot :: rest)) (fun tp2 _ =>
              let result :=
                (alookup tp2.decorating (extractGraphKey spec)).getD
                  ExecutionCollect.zero
              let tp3 := { tp2 with
                decorated := aset tp2.decorated (extractGraphKey spec) result,
                decorating := aerase tp2.decorating (extractGraphKey spec) }
              some (tp3, Except.ok result))

/-- Decorator loop of `toposortGenerateCollect`. -/
def toposortDecorateLoop (g : Graph) : Nat → GraphToposort → GraphNodeKey →
    List GraphNodeOutputSlot → PRes Unit
  | _, tp, _, [] => some (tp, Except.ok ())
  | 0, _, _, _ :: _ => none
  | fuel + 1, tp, key, slot :: rest =>
    pbind (toposortGenerateGraphNodeID g fuel tp slot.id) (fun tp1 params =>
      let tp2 := { tp1 with
        decorating :=
          aset tp1.decorating key { result := some params, index := slot.index } }
      toposortDecorateLoop g fuel tp2 key rest)

/-- `toposortGenerateGraphNode`: two input passes, then emit collect-param and
user-action steps. -/
def toposortGenerateGraphNode (g : Graph) : Nat → GraphToposort → GraphNode → PRes Nat
  | 0, _, _ => none
  | fuel + 1, tp, current =>
    let alloc1 := tp.alloc (List.replicate current.input.length RValue.invalid)
    pbind (toposortBaseLoop g fuel alloc1.2 current.input) (fun tp2 _ =>
      pbind (toposortCollectLoop g fuel tp2 current.input []) (fun tp3 items =>
        let tp4 := { tp3 with
          result := tp3.result ++ [ExecutionNode.collectParam items alloc1.1] }
        let alloc2 := tp4.alloc (List.replicate current.output.length RValue.invalid)
        let tp5 := { alloc2.2 with
          result := alloc2.2.result ++
            [ExecutionNode.user alloc1.1 alloc2.1 current.value] }
        some (tp5, Except.ok alloc2.1)))

/-- First input pass of `toposortGenerateGraphNode` (base-collect every input). -/
def toposortBaseLoop (g : Graph) : Nat → GraphToposort → List Spec → PRes Unit
  | _, tp, [] => some (tp, Except.ok ())
  | 0, _, _ :: _ => none
  | fuel + 1, tp, input :: rest =>
    pbind (toposortGenerateBaseCollect g fuel tp (extractGraphKey input)) (fun tp1 _ =>
      toposortBaseLoop g fuel tp1 rest)

/-- Second input pass of `toposortGenerateGraphNode` (final collect of every input). -/
def toposortCollectLoop (g : Graph) : Nat → GraphToposort → List Spec →
    List ExecutionCollect → PRes (List ExecutionCollect)
  | _, tp, [], acc => some (tp, Except.ok acc)
  | 0, _, _ :: _, _ => none
  | fuel + 1, tp, input :: rest, acc =>
    pbind (toposortGenerateCollect g fuel tp input) (fun tp1 collect =>
      toposortCollectLoop g fuel tp1 rest (acc ++ [collect]))

end

/-- Root loop of `graph.toposort` over the invoke nodes. -/
def toposortInvokesLoop (g : Graph) (fuel : Nat) :
    GraphToposort → List GraphNode → PRes Unit
  | tp, [] => some (tp, Except.ok ())
  | tp, invoke :: rest =>
    pbind (toposortGenerateGraphNode g fuel tp invoke) (fun tp1 _ =>
      toposortInvokesLoop g fuel tp1 rest)

/-- `graph.toposort`: evaluate the execution plan for the invoked nodes.
The Go function returns the plan slice; the buffers live behind pointers, so
the model returns the plan together with the final buffer store. -/
def Graph.toposort (g : Graph) (fuel : Nat) (invokes : List GraphNode) :
    Option (Except RunErr (List ExecutionNode × Store)) :=
  match toposortInvokesLoop g fuel newGraphToposort invokes with
  | none => none
  | some (_, Except.error e) => some (Except.error e)
  | some (tp, Except.ok _) => some (Except.ok (tp.result, tp.store))

/-- Read a value through a collect descriptor (`executionCollect.collect`);
`none` models the nil-pointer or out-of-range panic. -/
def collectGet (store : Store) (c : ExecutionCollect) : Option RValue :=
  match c.result with
  | none => none
  | some b => store[b]?.bind (fun buf => buf[c.index]?)

/-- Go `copy(dst, src)`: copy `min` elements, keep the tail of `dst`. -/
def copyList (dst src : List RValue) : List RValue :=
  src.take dst.length ++ dst.drop (min src.length dst.length)

/-- `collectParamNode.execute`: copy each source into the param buffer. -/
def execCollectParamLoop (store : Store) (resultId : Nat) :
    List ExecutionCollect → Nat → Option Store
  | [], _ => some store
  | c :: rest, i =>
    match collectGet store c with
    | none => none
    | some v =>
      match store[resultId]? with
      | none => none
      | some buf =>
        if i < buf.length then
          execCollectParamLoop (store.set resultId (buf.set i v)) resultId rest (i + 1)
        else none

/-- `reflect.AppendSlice`: concatenate two slices (panic on non-slices). -/
def appendSliceRV : RValue → RValue → Option RValue
  | RValue.slice xs, RValue.slice ys => some (RValue.slice (xs ++ ys))
  | _, _ => none

/-- `collectGroupNode.execute`: fold every source slice into `params[0]`. -/
def execCollectGroupLoop (store : Store) (resultId : Nat) :
    List ExecutionCollect → Option Store
  | [] => some store
  | c :: rest =>
    match collectGet store c, store[resultId]? with
    | some v, some buf =>
      match buf[0]? with
      | none => none
      | some acc =>
        match appendSliceRV acc v with
        | none => none
        | some acc2 => execCollectGroupLoop (store.set resultId (buf.set 0 acc2)) resultId rest
    | _, _ => none

/-- Write action outputs into an output buffer with `copy` semantics. -/
def writeCopy (store : Store) (bufId : Nat) (vals : List RValue) : Option Store :=
  match store[bufId]? with
  | none => none
  | some buf => some (store.set bufId (copyList buf vals))

/-- `runState`: queue of pending execution nodes plus the buffer store, and
the event log written by the modelled host actions. -/
structure RunState where
  store : Store
  pending : List ExecutionNode
  events : List String
deriving Repr

/-- `runState.run` of the core package: consume pending steps from the front;
plumbing steps execute silently, a user step dispatches the host action and
wraps a failure in `ErrExecute` tagged with the action formatter (empty-name
fallback). A stack action writes its outputs, drains the remaining queue
re-entrantly (the continuation), logs its teardown event, and propagates the
continuation's outcome. `none` models non-termination or a panic. -/
def runStateRun : Nat → RunState → Option (RunState × Option RunErr)
  | 0, _ => none
  | fuel + 1, rs =>
    match rs.pending with
    | [] => some (rs, none)
    | node :: rest =>
      match node with
      | ExecutionNode.collectParam items resultId =>
        match execCollectParamLoop rs.store resultId items 0 with
        | none => none
        | some store1 =>
          runStateRun fuel { rs with store := store1, pending := rest }
      | ExecutionNode.collectGroup items resultId =>
        match execCollectGroupLoop rs.store resultId items with
        | none => none
        | some store1 =>
          runStateRun fuel { rs with store := store1, pending := rest }
      | ExecutionNode.user _ resultId value =>
        match value.behavior with
        | ActBehavior.act log outs =>
          match writeCopy rs.store resultId outs with
          | none => none
          | some store1 =>
            runStateRun fuel
              { store := store1, pending := rest, events := rs.events ++ log.toList }
        | ActBehavior.failing log msg =>
          some ({ rs with pending := rest, events := rs.events ++ log.toList },
            some (RunErr.execWrap (value.format.getD "") (RunErr.user msg)))
        | ActBehavior.stack log outs teardown =>
          match writeCopy rs.store resultId outs with
          | none => none
          | some store1 =>
            match runStateRun fuel
                { store := store1, pending := rest,
                  events := rs.events ++ log.toList } with
            | none => none
            | some (rs1, innerErr) =>
              let rs2 := { rs1 with events := rs1.events ++ [teardown] }
              match innerErr with
              | some e =>
                some (rs2, some (RunErr.execWrap (value.format.getD "") e))
              | none => runStateRun fuel rs2

/-- `core.Run` (modulo option collection): plan with `toposort`, then execute
the plan; a planning error is returned before any step runs. The second
component is the final event log of the modelled host actions. -/
def coreRun (g : Graph) (invokes : List GraphNode) (planFuel runFuel : Nat) :
    Option (Except RunErr Unit × List String) :=
  match g.toposort planFuel invokes with
  | none => none
  | some (Except.error e) => some (Except.error e, [])
  | some (Except.ok (plan, store)) =>
    match runStateRun runFuel { store := store, pending := plan, events := [] } with
    | none => none
    | some (rs, some e) => some (Except.error e, rs.events)
    | some (rs, none) => some (Except.ok (), rs.events)

/-! ## Spec and node builders mirroring the option constructors -/

/-- A plain singleton port spec. -/
def plainSpec (t : Nat) : Spec := { typ := t, name := "", group := false, decorate := false }

/-- A group port spec. -/
def groupSpec (t : Nat) : Spec := { typ := t, name := "", group := true, decorate := false }

/-- A decorating singleton port spec. -/
def decoSpec (t : Nat) : Spec := { typ := t, name := "", group := false, decorate := true }

/-- `core.Provide`/`core.Supply`: an ordinary provider node whose action logs
an optional event and copies constant outputs into the output buffer. -/
def mkProvide (input output : List Spec) (format : Option String)
    (log : Option String) (outs : List RValue) : GraphNode :=
  { input := input, output := output,
    value := { format := format, behavior := ActBehavior.act log outs },
    format := format }

/-- `core.Stack`: a stack provider; the modelled host logs an entry event,
invokes the continuation once with constant values, then logs a teardown. -/
def mkStack (input output : List Spec) (format : Option String)
    (log : Option String) (outs : List RValue) (teardown : String) : GraphNode :=
  { input := input, output := output,
    value := { format := format, behavior := ActBehavior.stack log outs teardown },
    format := format }

/-- `core.Invoke`: a consumer root (no outputs). -/
def mkInvoke (input : List Spec) (format : Option String)
    (log : Option String) : GraphNode :=
  { input := input, output := [],
    value := { format := format, behavior := ActBehavior.act log [] },
    format := format }

/-! ## Plan observation helpers -/

/-- The plan of a successful toposort result (empty on error/divergence). -/
def planOf (r : Option (Except RunErr (List ExecutionNode × Store))) :
    List ExecutionNode :=
  match r with
  | some (Except.ok (p, _)) => p
  | _ => []

/-- The planner store of a successful toposort result. -/
def storeOf (r : Option (Except RunErr (List ExecutionNode × Store))) : Store :=
  match r with
  | some (Except.ok (_, s)) => s
  | _ => []

/-- Formatter names of the user-action steps of a plan, in plan order. -/
def userFormats (plan : List ExecutionNode) : List (Option String) :=
  plan.filterMap (fun n =>
    match n with
    | ExecutionNode.user _ _ value => some value.format
    | _ => none)

/-- Whether every collect descriptor of every plan step is filled
(no nil `executionCollect{}` buffer reference). -/
def planFilled (plan : List ExecutionNode) : Bool :=
  plan.all (fun n =>
    match n with
    | ExecutionNode.user _ _ _ => true
    | ExecutionNode.collectParam items _ => items.all (fun c => c.result.isSome)
    | ExecutionNode.collectGroup items _ => items.all (fun c => c.result.isSome))

/-! ## C2: collect-group run-time semantics -/

/-- Modelled from the spec (§4.4 collect-group): "for each source `(buffer,
index)`, append that single element onto the aggregation buffer; the slot is
itself a single element, not a sequence to splice". This definition follows
the spec's words for comparison with the source-derived
`execCollectGroupLoop` (which uses `reflect.AppendSlice`). -/
def specCollectGroupLoop (store : Store) (resultId : Nat) :
    List ExecutionCollect → Option Store
  | [] => some store
  | c :: rest =>
    match collectGet store c, store[resultId]? with
    | some v, some buf =>
      match buf[0]? with
      | none => none
      | some acc =>
        match acc with
        | RValue.slice xs =>
          specCollectGroupLoop (store.set resultId (buf.set 0 (RValue.slice (xs ++ [v]))))
            resultId rest
        | _ => none
    | _, _ => none

/-- The elements contributed by one source slot under the source semantics
(the element list of the collected slice value). -/
def collectElems (store : Store) (c : ExecutionCollect) : List RValue :=
  match collectGet store c with
  | some (RValue.slice es) => es
  | _ => []

/-- Reading through a collect descriptor is unaffected by writing a
different buffer. -/
theorem collectGet_set_ne (store : Store) (r : Nat) (b : List RValue)
    (c : ExecutionCollect) (h : c.result ≠ some r) :
    collectGet (store.set r b) c = collectGet store c := by
  match hc : c.result with
  | none => simp [collectGet, hc]
  | some b2 =>
    have hne : r ≠ b2 := by
      intro he
      exact h (by rw [hc, he])
    simp [collectGet, hc, List.getElem?_set_ne hne]

/-- The contributed element list is unaffected by writing a different buffer. -/
theorem collectElems_set_ne (store : Store) (r : Nat) (b : List RValue)
    (c : ExecutionCollect) (h : c.result ≠ some r) :
    collectElems (store.set r b) c = collectElems store c := by
  simp [collectElems, collectGet_set_ne store r b c h]

/-- Setting an index to the value it already holds is the identity. -/
theorem list_set_same {α : Type} (l : List α) (i : Nat) (a : α)
    (h : l[i]? = some a) : l.set i a = l := by
  apply List.ext_getElem?
  intro n
  rcases eq_or_ne i n with rfl | hne
  · rw [List.getElem?_set_eq_of_lt _ (List.getElem?_eq_some.mp h).1, h]
  · rw [List.getElem?_set_ne hne]

/-- C2 (amended): at run time a collect-group step concatenates, for each of
its recorded sources `(buffer, index)` in order, the elements of that source's
slice value onto the group's aggregation buffer (`reflect.AppendSlice`); each
source slot holds a sequence whose elements are spliced into the buffer, not
a single element to append. -/
theorem execCollectGroupLoop_splices
    (items : List ExecutionCollect) (store : Store) (resultId : Nat)
    (buf : List RValue) (acc : List RValue)
    (hbuf : store[resultId]? = some buf)
    (h0 : buf[0]? = some (RValue.slice acc))
    (hitems : ∀ c ∈ items, c.result ≠ some resultId ∧
      ∃ es, collectGet store c = some (RValue.slice es)) :
    execCollectGroupLoop store resultId items =
      some (store.set resultId
        (buf.set 0 (RValue.slice (acc ++ (items.map (collectElems store)).flatten)))) := by
  induction items generalizing store buf acc with
  | nil =>
    simp only [execCollectGroupLoop, List.map_nil, List.flatten_nil, List.append_nil]
    rw [list_set_same _ _ _ h0, list_set_same _ _ _ hbuf]
  | cons c rest ih =>
    obtain ⟨hne, es, hget⟩ := hitems c (by simp)
    have hlt : resultId < store.length := (List.getElem?_eq_some.mp hbuf).1
    have hlt0 : 0 < buf.length := (List.getElem?_eq_some.mp h0).1
    have hstep : execCollectGroupLoop store resultId (c :: rest) =
        execCollectGroupLoop
          (store.set resultId (buf.set 0 (RValue.slice (acc ++ es)))) resultId rest := by
      simp [execCollectGroupLoop, hget, hbuf, h0, appendSliceRV]
    rw [hstep]
    have hbuf2 : (store.set resultId (buf.set 0 (RValue.slice (acc ++ es))))[resultId]? =
        some (buf.set 0 (RValue.slice (acc ++ es))) :=
      List.getElem?_set_eq_of_lt _ hlt
    have h02 : (buf.set 0 (RValue.slice (acc ++ es)))[0]? =
        some (RValue.slice (acc ++ es)) :=
      List.getElem?_set_eq_of_lt _ hlt0
    have hrest : ∀ x ∈ rest, x.result ≠ some resultId ∧
        ∃ es2, collectGet (store.set resultId (buf.set 0 (RValue.slice (acc ++ es)))) x =
          some (RValue.slice es2) := by
      intro x hx
      obtain ⟨hxne, es2, hx2⟩ := hitems x (by simp [hx])
      exact ⟨hxne, es2, by rw [collectGet_set_ne _ _ _ _ hxne]; exact hx2⟩
    rw [ih _ _ _ hbuf2 h02 hrest]
    have hmap : rest.map (collectElems
        (store.set resultId (buf.set 0 (RValue.slice (acc ++ es))))) =
        rest.map (collectElems store) := by
      apply List.map_congr_left
      intro x hx
      exact collectElems_set_ne _ _ _ _ (hitems x (by simp [hx])).1
    have hc : collectElems store c = es := by
      simp [collectElems, hget]
    rw [hmap, List.set_set, List.set_set]
    simp [hc, List.append_assoc]

/-- Concrete store for the C2 counterexample: buffer 0 is a fresh group
aggregation buffer, buffer 1 is a provider output slot holding a two-element
slice. -/
def c2Store : Store :=
  [[RValue.slice []], [RValue.slice [RValue.base "x", RValue.base "y"]]]

/-- The single source of the C2 counterexample collect-group step. -/
def c2Items : List ExecutionCollect := [{ result := some 1, index := 0 }]

/-- C2 counterexample: executing the collect-group step on a source slot
holding the two-element slice `[x, y]` splices both elements into the
aggregation buffer (the source uses `reflect.AppendSlice`), whereas the
claimed append-as-one-element semantics (`specCollectGroupLoop`, modelled
from the spec's words) would nest the slice as a single element; the two
results differ, refuting the claim. -/
theorem collectGroup_splice_counterexample :
    execCollectGroupLoop c2Store 0 c2Items =
      some [[RValue.slice [RValue.base "x", RValue.base "y"]],
            [RValue.slice [RValue.base "x", RValue.base "y"]]] ∧
    specCollectGroupLoop c2Store 0 c2Items =
      some [[RValue.slice [RValue.slice [RValue.base "x", RValue.base "y"]]],
            [RValue.slice [RValue.base "x", RValue.base "y"]]] ∧
    execCollectGroupLoop c2Store 0 c2Items ≠ specCollectGroupLoop c2Store 0 c2Items :=
  ⟨rfl, rfl, by decide⟩

/-- Witness for the C2 amended theorem at the concrete counterexample input. -/
theorem execCollectGroupLoop_splices_witness :
    execCollectGroupLoop c2Store 0 c2Items =
      some (c2Store.set 0 ([RValue.slice []].set 0
        (RValue.slice ([] ++ (c2Items.map (collectElems c2Store)).flatten)))) :=
  execCollectGroupLoop_splices c2Items c2Store 0 [RValue.slice []] [] rfl rfl
    (by
      intro c hc
      simp only [c2Items, List.mem_singleton] at hc
      subst hc
      exact ⟨by decide, [RValue.base "x", RValue.base "y"], rfl⟩)

/-! ## The integration scenario of run_test.go (scenario 3)

Type identities: `*[]string` (events) = 0, `[]I` = 1, `*B` = 2, `int` = 3,
`*C` = 4, `*D` = 5. `decorateObjectD` consumes and provides `*B`, so the
reflection front end marks both `*B` ports as decorating; every `[]I` port
is a group port. -/

/-- `provideObjectA(events, *D) → []I`, logging "provide a". -/
def scNodeA : GraphNode :=
  mkProvide [plainSpec 0, plainSpec 5] [groupSpec 1] (some "provideObjectA")
    (some "provide a") [RValue.slice [RValue.base "a"]]

/-- `stackObjectB(cont, events) → (*B, []I)`, logging "stack b"/"defer b". -/
def scNodeB : GraphNode :=
  mkStack [plainSpec 0] [plainSpec 2, groupSpec 1] (some "stackObjectB")
    (some "stack b") [RValue.base "b", RValue.slice [RValue.base "b"]] "defer b"

/-- `redundantObjectC(events) → *C`, logging "provide c". -/
def scNodeC : GraphNode :=
  mkProvide [plainSpec 0] [plainSpec 4] (some "redundantObjectC")
    (some "provide c") [RValue.base "c"]

/-- `decorateObjectD(events, *B, int) → (*B, *D, []I)`, logging "provide d". -/
def scNodeD : GraphNode :=
  mkProvide [plainSpec 0, decoSpec 2, plainSpec 3] [decoSpec 2, plainSpec 5, groupSpec 1]
    (some "decorateObjectD") (some "provide d")
    [RValue.base "b2", RValue.base "d", RValue.slice [RValue.base "d"]]

/-- `Supply(&events, int(123456))`. -/
def scNodeSupply : GraphNode :=
  mkProvide [] [plainSpec 0, plainSpec 3] (some "supply")
    none [RValue.base "ev", RValue.base "123456"]

/-- The invoke root consuming `([]I, *[]string)`. -/
def scenario3Root : GraphNode :=
  mkInvoke [groupSpec 1, plainSpec 0] (some "invoke") (some "invoke")

/-- The scenario-3 graph in test insertion order. -/
def scenario3Graph : Graph :=
  Graph.ofNodes [scNodeA, scNodeB, scNodeC, scNodeD, scNodeSupply]

/-! ## Association-list lemmas -/

theorem alookup_aset_self {κ α : Type} [DecidableEq κ] (m : List (κ × α)) (k : κ) (v : α) :
    alookup (aset m k v) k = some v := by
  induction m with
  | nil => simp [aset, alookup]
  | cons p rest ih =>
    by_cases h : p.1 = k
    · simp [aset, alookup, h]
    · simp [aset, alookup, h, ih]

theorem alookup_aset_ne {κ α : Type} [DecidableEq κ] (m : List (κ × α)) (k k2 : κ)
    (v : α) (h : k ≠ k2) : alookup (aset m k v) k2 = alookup m k2 := by
  induction m with
  | nil => simp [aset, alookup, h]
  | cons p rest ih =>
    by_cases hp : p.1 = k
    · simp [aset, alookup, hp, h]
    · simp only [aset, hp, if_false, alookup]
      by_cases hp2 : p.1 = k2 <;> simp [hp2, ih]

/-! ## C6: singleton resolution errors and duplicate insertion -/

/-- A graph with no providers of any key. -/
def bareGraph : Graph := newGraph

/-- A concrete group graph with two providers of the same group key 5. -/
def twoGroupGraph : Graph := Graph.ofNodes [
  mkProvide [] [groupSpec 5] (some "P1") (some "P1") [RValue.slice [RValue.base "i1"]],
  mkProvide [] [groupSpec 5] (some "P2") (some "P2") [RValue.slice [RValue.base "i2"]] ]

/-- The consumer root of the group key 5. -/
def twoGroupRoot : GraphNode := mkInvoke [groupSpec 5] (some "rootG") (some "rootG")

/-- The source lists of the collect-group steps of a plan. -/
def groupSources (plan : List ExecutionNode) : List (List ExecutionCollect) :=
  plan.filterMap (fun n =>
    match n with
    | ExecutionNode.collectGroup items _ => some items
    | _ => none)

/-- C6: resolving a singleton key during planning fails with a
missing-dependency error when the provide map holds zero slots for the key,
and with an ambiguous-dependency error when it holds two or more; inserting a
duplicate provider for an already provided key never errors — `insert` is
total and records the additional slot after the existing ones — and two
providers of the same group key are legal and both contribute (the planned
collect-group step has both sources and planning succeeds). -/
theorem singleton_resolution_errors :
    (∀ (g : Graph) (fuel : Nat) (tp : GraphToposort) (key : GraphNodeKey),
      slotsOf g.provide key = [] →
      toposortGenerateSingle g (fuel + 1) tp key =
        some (tp, Except.error (RunErr.missing key))) ∧
    (∀ (g : Graph) (fuel : Nat) (tp : GraphToposort) (key : GraphNodeKey)
      (s1 s2 : GraphNodeOutputSlot) (rest : List GraphNodeOutputSlot),
      slotsOf g.provide key = s1 :: s2 :: rest →
      toposortGenerateSingle g (fuel + 1) tp key =
        some (tp, Except.error (RunErr.ambiguous key))) ∧
    (∀ (g : Graph) (node : GraphNode) (s : Spec),
      node.output = [s] → s.decorate = false →
      slotsOf (g.insert node).provide (extractGraphKey s) =
        slotsOf g.provide (extractGraphKey s) ++
          [{ id := g.nodes.length, index := 0 }]) ∧
    ((groupSources (planOf (twoGroupGraph.toposort 30 [twoGroupRoot]))).map
        List.length = [2] ∧
      userFormats (planOf (twoGroupGraph.toposort 30 [twoGroupRoot])) =
        [some "P1", some "P2", some "rootG"]) := by
  refine ⟨?_, ?_, ?_, ?_, ?_⟩
  · intro g fuel tp key h
    simp [toposortGenerateSingle, h]
  · intro g fuel tp key s1 s2 rest h
    simp [toposortGenerateSingle, h]
  · intro g node s hout hdec
    simp [Graph.insert, hout, insertOutputs, hdec, appendSlot, slotsOf,
      alookup_aset_self]
  · simp [twoGroupGraph, twoGroupRoot, Graph.ofNodes, Graph.insert, insertOutputs,
      appendSlot, slotsOf, alookup, aset, newGraph, mkProvide, mkInvoke, groupSpec,
      Graph.toposort, toposortInvokesLoop, toposortGenerateGraphNode, toposortBaseLoop,
      toposortCollectLoop, toposortGenerateBaseCollect, toposortGenerateCollect,
      toposortGenerateSingle, toposortGenerateGrouped, toposortGroupedLoop,
      toposortDecorateLoop, toposortGenerateGraphNodeID, finishGenerateID,
      newGraphToposort, GraphToposort.alloc, pbind, extractGraphKey, pinsert, perase,
      planOf, groupSources]
  · simp [twoGroupGraph, twoGroupRoot, Graph.ofNodes, Graph.insert, insertOutputs,
      appendSlot, slotsOf, alookup, aset, newGraph, mkProvide, mkInvoke, groupSpec,
      Graph.toposort, toposortInvokesLoop, toposortGenerateGraphNode, toposortBaseLoop,
      toposortCollectLoop, toposortGenerateBaseCollect, toposortGenerateCollect,
      toposortGenerateSingle, toposortGenerateGrouped, toposortGroupedLoop,
      toposortDecorateLoop, toposortGenerateGraphNodeID, finishGenerateID,
      newGraphToposort, GraphToposort.alloc, pbind, extractGraphKey, pinsert, perase,
      planOf, userFormats]

/-- The key consumed in the C6/C8 missing-dependency examples. -/
def keyX : GraphNodeKey := { typ := 9, name := "", group := false }

/-- Witness for C6 at concrete inputs: the empty provide map yields the
missing error, a two-slot map yields the ambiguous error, inserting a
duplicate provider appends its slot, and the group conjunct is closed. -/
theorem singleton_resolution_errors_witness :
    toposortGenerateSingle bareGraph 5 newGraphToposort keyX =
      some (newGraphToposort, Except.error (RunErr.missing keyX)) ∧
    toposortGenerateSingle twoGroupGraph 5 newGraphToposort
        { typ := 5, name := "", group := true } =
      some (newGraphToposort, Except.error
        (RunErr.ambiguous { typ := 5, name := "", group := true })) ∧
    slotsOf ((twoGroupGraph.insert (mkProvide [] [plainSpec 9] (some "dup") none []))).provide
        (extractGraphKey (plainSpec 9)) =
      slotsOf twoGroupGraph.provide (extractGraphKey (plainSpec 9)) ++
        [{ id := 2, index := 0 }] := by
  refine ⟨?_, ?_, ?_⟩
  · exact singleton_resolution_errors.1 bareGraph 4 newGraphToposort keyX rfl
  · exact singleton_resolution_errors.2.1 twoGroupGraph 4 newGraphToposort
      { typ := 5, name := "", group := true }
      { id := 0, index := 0 } { id := 1, index := 0 } [] rfl
  · exact singleton_resolution_errors.2.2.1 twoGroupGraph
      (mkProvide [] [plainSpec 9] (some "dup") none []) (plainSpec 9) rfl rfl

/-! ## C7: cycle detection through singleton dependencies -/

/-- Scenario 4: `P1(B) → A`, `P2(A) → B` (A = key 0, B = key 1). -/
def cycleGraph : Graph := Graph.ofNodes [
  mkProvide [plainSpec 1] [plainSpec 0] (some "P1") (some "P1") [RValue.base "a"],
  mkProvide [plainSpec 0] [plainSpec 1] (some "P2") (some "P2") [RValue.base "b"] ]

/-- The consumer root of key A in scenario 4. -/
def cycleRoot : GraphNode := mkInvoke [plainSpec 0] (some "rootA") (some "rootA")

/-- C7: the depth-first schedule errors with a cyclic-dependency error
whenever the single provider slot of a resolved key belongs to a node
currently marked pending on the scheduling stack; in particular planning the
scenario-4 graph (a directed two-node cycle through singleton dependencies)
from a consumer root that reaches the cycle fails with exactly that error. -/
theorem cyclic_dependency_detection :
    (∀ (g : Graph) (fuel : Nat) (tp : GraphToposort) (key : GraphNodeKey)
      (slot : GraphNodeOutputSlot) (s : String),
      slotsOf g.provide key = [slot] →
      slot.id ∈ tp.pending →
      g.nodeString slot.id = some s →
      toposortGenerateSingle g (fuel + 1) tp key =
        some (tp, Except.error (RunErr.cyclic s key))) ∧
    cycleGraph.toposort 30 [cycleRoot] =
      some (Except.error (RunErr.cyclic "P1" { typ := 0, name := "", group := false })) := by
  constructor
  · intro g fuel tp key slot s h hp hs
    simp [toposortGenerateSingle, h, hp, hs]
  · simp [cycleGraph, cycleRoot, Graph.ofNodes, Graph.insert, insertOutputs,
      appendSlot, slotsOf, alookup, aset, newGraph, mkProvide, mkInvoke, plainSpec,
      Graph.toposort, toposortInvokesLoop, toposortGenerateGraphNode, toposortBaseLoop,
      toposortCollectLoop, toposortGenerateBaseCollect, toposortGenerateCollect,
      toposortGenerateSingle, toposortGenerateGrouped, toposortGroupedLoop,
      toposortDecorateLoop, toposortGenerateGraphNodeID, finishGenerateID,
      newGraphToposort, GraphToposort.alloc, pbind, extractGraphKey, pinsert, perase,
      Graph.nodeString, GraphNode.displayString]

/-- Witness for C7: the general pending-slot clause applied to the
scenario-4 graph in the state where node 0 (`P1`) is pending. -/
theorem cyclic_dependency_detection_witness :
    toposortGenerateSingle cycleGraph 5
        { newGraphToposort with pending := [0] }
        { typ := 0, name := "", group := false } =
      some ({ newGraphToposort with pending := [0] },
        Except.error (RunErr.cyclic "P1" { typ := 0, name := "", group := false })) := by
  refine cyclic_dependency_detection.1 cycleGraph 4
    { newGraphToposort with pending := [0] }
    { typ := 0, name := "", group := false }
    { id := 0, index := 0 } "P1" ?_ ?_ ?_
  · simp [cycleGraph, Graph.ofNodes, Graph.insert, insertOutputs, appendSlot,
      slotsOf, alookup, aset, newGraph, mkProvide, plainSpec, extractGraphKey]
  · simp
  · rfl

/-! ## C8: error labels and wrappers surfaced by Run -/

/-- Whether an error is a dependency-chain wrapper (`ErrDependency`). -/
def RunErr.isDepWrap : RunErr → Bool
  | RunErr.depWrap _ _ => true
  | _ => false

/-- A consumer root of the unprovided key 9. -/
def missingRoot : GraphNode := mkInvoke [plainSpec 9] (some "root") (some "root")

/-- Helper: the concrete Run outcome with no provider of key 9. -/
theorem coreRun_missing_eq :
    coreRun bareGraph [missingRoot] 10 10 =
      some (Except.error (RunErr.missing keyX), []) := by
  simp [bareGraph, missingRoot, newGraph, mkInvoke, plainSpec, keyX,
    coreRun, Graph.toposort, toposortInvokesLoop, toposortGenerateGraphNode,
    toposortBaseLoop, toposortCollectLoop, toposortGenerateBaseCollect,
    toposortGenerateSingle, newGraphToposort, GraphToposort.alloc, pbind,
    extractGraphKey, slotsOf, alookup]

/-- C8 counterexample: running with no provider of key 9 surfaces the plain
missing-dependency error, which carries only the port key — it names no node
label and is not wrapped in a dependency-chain wrapper (`ErrDependency` is
defined by the source but never constructed), refuting the claim that every
error surfaced by Run carries an offending-node label and that planning
errors are wrapped in dependency-chain wrappers. -/
theorem error_label_counterexample :
    coreRun bareGraph [missingRoot] 10 10 =
      some (Except.error (RunErr.missing keyX), []) ∧
    (RunErr.missing keyX).isDepWrap = false :=
  ⟨coreRun_missing_eq, rfl⟩

/-- A provider of key 0 with no formatter attached. -/
def noFmtGraph : Graph := Graph.ofNodes [
  { input := [], output := [plainSpec 0],
    value := { format := none, behavior := ActBehavior.act none [] }, format := none } ]

/-- C8 (amended): planning errors are returned unwrapped (no `ErrDependency`
is ever constructed); among them only the cyclic-dependency error embeds a
node label, drawn from the offending provider node's formatter with fallback
`#<id>`; missing- and ambiguous-dependency errors carry only the port key;
execution errors are wrapped in an `ErrExecute` wrapper labelled by the
failing action's formatter string, with the empty string (not `#<id>`) as
fallback. -/
theorem error_labels_amended :
    (∀ (g : Graph) (fuel : Nat) (tp : GraphToposort) (key : GraphNodeKey)
      (slot : GraphNodeOutputSlot) (node : GraphNode),
      slotsOf g.provide key = [slot] →
      slot.id ∈ tp.pending →
      g.nodes[slot.id]? = some node →
      toposortGenerateSingle g (fuel + 1) tp key =
        some (tp, Except.error (RunErr.cyclic (node.displayString slot.id) key))) ∧
    (∀ (fuel : Nat) (store : Store) (events : List String) (p r : Nat)
      (fm log : Option String) (msg : String) (rest : List ExecutionNode),
      runStateRun (fuel + 1)
        { store := store,
          pending := ExecutionNode.user p r
            { format := fm, behavior := ActBehavior.failing log msg } :: rest,
          events := events } =
        some ({ store := store, pending := rest, events := events ++ log.toList },
          some (RunErr.execWrap (fm.getD "") (RunErr.user msg)))) ∧
    coreRun bareGraph [missingRoot] 10 10 =
      some (Except.error (RunErr.missing keyX), []) := by
  refine ⟨?_, ?_, coreRun_missing_eq⟩
  · intro g fuel tp key slot node h hp hn
    simp [toposortGenerateSingle, h, hp, Graph.nodeString, hn]
  · intro fuel store events p r fm log msg rest
    simp [runStateRun]

/-- Witness for the C8 amended theorem: the cyclic label falls back to `#0`
for the formatterless provider of `noFmtGraph`, and a failing user action is
wrapped with the empty-string label when its action has no formatter. -/
theorem error_labels_amended_witness :
    toposortGenerateSingle noFmtGraph 5 { newGraphToposort with pending := [0] }
        { typ := 0, name := "", group := false } =
      some ({ newGraphToposort with pending := [0] },
        Except.error (RunErr.cyclic "#0" { typ := 0, name := "", group := false })) ∧
    runStateRun 3
        { store := [[]],
          pending := [ExecutionNode.user 0 0
            { format := none, behavior := ActBehavior.failing none "boom" }],
          events := [] } =
      some ({ store := [[]], pending := [], events := [] },
        some (RunErr.execWrap "" (RunErr.user "boom"))) := by
  constructor
  · refine error_labels_amended.1 noFmtGraph 4 { newGraphToposort with pending := [0] }
      { typ := 0, name := "", group := false } { id := 0, index := 0 }
      { input := [], output := [plainSpec 0],
        value := { format := none, behavior := ActBehavior.act none [] },
        format := none } ?_ ?_ ?_
    · simp [noFmtGraph, Graph.ofNodes, Graph.insert, insertOutputs, appendSlot,
        slotsOf, alookup, aset, newGraph, plainSpec, extractGraphKey]
    · simp
    · rfl
  · exact error_labels_amended.2.1 2 [[]] [] 0 0 none none "boom" []

/-! ## C5: stack continuation drains the queue; LIFO teardown -/

/-- A successful run ends with an empty pending queue: every planned step was
executed. -/
theorem runStateRun_ok_pending : ∀ (fuel : Nat) (rs rs2 : RunState),
    runStateRun fuel rs = some (rs2, none) → rs2.pending = [] := by
  intro fuel
  induction fuel with
  | zero => intro rs rs2 h; simp [runStateRun] at h
  | succ fuel ih =>
    intro rs rs2 h
    simp only [runStateRun] at h
    repeat' split at h
    all_goals first
      | exact ih _ _ h
      | simp_all

/-- Running with an empty queue returns immediately. -/
theorem runStateRun_nil (fuel : Nat) (rs : RunState) (h : rs.pending = []) :
    runStateRun (fuel + 1) rs = some (rs, none) := by
  simp [runStateRun, h]

/-- One stack step: the action writes its outputs, the continuation drains
the whole remaining queue re-entrantly, the teardown event is logged after
that drain, and the continuation's outcome is propagated (wrapped on error). -/
theorem runStateRun_stack_step (fuel : Nat) (store : Store) (events : List String)
    (p r : Nat) (fm log : Option String) (outs : List RValue) (td : String)
    (rest : List ExecutionNode) (store1 : Store) (rs1 : RunState) (res : Option RunErr)
    (hw : writeCopy store r outs = some store1)
    (hrun : runStateRun fuel
      { store := store1, pending := rest, events := events ++ log.toList } =
      some (rs1, res)) :
    runStateRun (fuel + 1)
      { store := store,
        pending := ExecutionNode.user p r
          { format := fm, behavior := ActBehavior.stack log outs td } :: rest,
        events := events } =
      match res with
      | some e => some ({ rs1 with events := rs1.events ++ [td] },
          some (RunErr.execWrap (fm.getD "") e))
      | none => runStateRun fuel { rs1 with events := rs1.events ++ [td] } := by
  cases res <;> simp [runStateRun, hw, hrun]

/-- C5: for nested stack steps, each stack's continuation executes every
remaining pending step of the plan (the drain of the rest succeeds and the
final queue is empty) before control returns to the stack function, so the
teardown events fire after all downstream events and in reverse order of
stack entry (LIFO): the run ends successfully with the inner teardown logged
before the outer one, after all events of the rest of the plan. -/
theorem stack_teardown_lifo (fuel : Nat) (store : Store) (events : List String)
    (p1 r1 p2 r2 : Nat) (fm1 fm2 log1 log2 : Option String)
    (outs1 outs2 : List RValue) (td1 td2 : String)
    (rest : List ExecutionNode) (store1 store2 : Store) (rs2 : RunState)
    (hw1 : writeCopy store r1 outs1 = some store1)
    (hw2 : writeCopy store1 r2 outs2 = some store2)
    (hrest : runStateRun (fuel + 1)
      { store := store2, pending := rest,
        events := (events ++ log1.toList) ++ log2.toList } = some (rs2, none)) :
    runStateRun (fuel + 1 + 1 + 1)
      { store := store,
        pending := ExecutionNode.user p1 r1
            { format := fm1, behavior := ActBehavior.stack log1 outs1 td1 } ::
          ExecutionNode.user p2 r2
            { format := fm2, behavior := ActBehavior.stack log2 outs2 td2 } :: rest,
        events := events } =
      some ({ rs2 with events := (rs2.events ++ [td2]) ++ [td1] }, none) ∧
    rs2.pending = [] := by
  have hpend : rs2.pending = [] := runStateRun_ok_pending _ _ _ hrest
  refine ⟨?_, hpend⟩
  have hinner : runStateRun (fuel + 1 + 1)
      { store := store1,
        pending := ExecutionNode.user p2 r2
          { format := fm2, behavior := ActBehavior.stack log2 outs2 td2 } :: rest,
        events := events ++ log1.toList } =
      some ({ rs2 with events := rs2.events ++ [td2] }, none) := by
    rw [runStateRun_stack_step (fuel + 1) store1 (events ++ log1.toList) p2 r2 fm2 log2
      outs2 td2 rest store2 rs2 none hw2 hrest]
    exact runStateRun_nil fuel _ (by simpa using hpend)
  rw [runStateRun_stack_step (fuel + 1 + 1) store events p1 r1 fm1 log1 outs1 td1 _
    store1 { rs2 with events := rs2.events ++ [td2] } none hw1 hinner]
  exact runStateRun_nil (fuel + 1) _ (by simpa using hpend)

/-- Witness for C5: two nested stacks around a one-step rest plan; the drain
hypotheses hold concretely and the run logs `exit2` before `exit1`, after the
rest's event. -/
theorem stack_teardown_lifo_witness :
    runStateRun 9
      { store := [[RValue.invalid], [RValue.invalid]],
        pending := [ExecutionNode.user 0 0
            { format := some "S1", behavior :=
                ActBehavior.stack (some "enter1") [RValue.base "v1"] "exit1" },
          ExecutionNode.user 1 1
            { format := some "S2", behavior :=
                ActBehavior.stack (some "enter2") [RValue.base "v2"] "exit2" },
          ExecutionNode.user 0 0
            { format := some "inner", behavior := ActBehavior.act (some "inner") [] }],
        events := [] } =
      some ({ store := [[RValue.base "v1"], [RValue.base "v2"]], pending := [],
              events := [["enter1", "enter2", "inner"], ["exit2"], ["exit1"]].flatten },
        none) := by
  have h := stack_teardown_lifo 5 [[RValue.invalid], [RValue.invalid]] [] 0 0 1 1
    (some "S1") (some "S2") (some "enter1") (some "enter2")
    [RValue.base "v1"] [RValue.base "v2"] "exit1" "exit2"
    [ExecutionNode.user 0 0
      { format := some "inner", behavior := ActBehavior.act (some "inner") [] }]
    [[RValue.base "v1"], [RValue.invalid]]
    [[RValue.base "v1"], [RValue.base "v2"]]
    { store := [[RValue.base "v1"], [RValue.base "v2"]], pending := [],
      events := ["enter1", "enter2", "inner"] }
    rfl rfl rfl
  simpa using h.1

/-! ## C10: planning diverges on a dependency cycle through a group port -/

/-- A provider of group key 9 that also consumes group key 9. -/
def gcNode : GraphNode :=
  mkProvide [groupSpec 9] [groupSpec 9] (some "P") (some "P")
    [RValue.slice [RValue.base "p"]]

/-- The one-node graph whose only dependency cycle passes through a group
port (no singleton resolution is involved, so the pending-set check of
`toposortGenerateSingle` is never consulted). -/
def groupCycleGraph : Graph := Graph.ofNodes [gcNode]

/-- A consumer root of group key 9. -/
def groupCycleRoot : GraphNode := mkInvoke [groupSpec 9] (some "r") (some "r")

/-- The group key of the cycle. -/
def gcKey : GraphNodeKey := { typ := 9, name := "", group := true }

theorem gc_slots : slotsOf groupCycleGraph.provide gcKey = [{ id := 0, index := 0 }] := rfl

theorem gc_node0 : groupCycleGraph.nodes[0]? = some gcNode := rfl

/-- Simultaneous divergence invariant: starting from any planner state in
which group key 9 is not yet memoised and node 0 has no recorded outputs,
every planner entry point of the cycle runs out of any amount of fuel
(models the unbounded mutual recursion of the Go planner on this graph:
`toposortGenerateGrouped` re-enters itself through the provider before
`tp.grouped` is recorded). -/
theorem groupCycle_all_none : ∀ (fuel : Nat) (tp : GraphToposort),
    alookup tp.grouped gcKey = none → alookup tp.outputs 0 = none →
    toposortGenerateGrouped groupCycleGraph fuel tp gcKey = none ∧
    (∀ acc, toposortGroupedLoop groupCycleGraph fuel tp
      [{ id := 0, index := 0 }] acc = none) ∧
    toposortGenerateGraphNodeID groupCycleGraph fuel tp 0 = none ∧
    toposortGenerateGraphNode groupCycleGraph fuel tp gcNode = none ∧
    toposortGenerateBaseCollect groupCycleGraph fuel tp gcKey = none ∧
    toposortBaseLoop groupCycleGraph fuel tp [groupSpec 9] = none := by
  intro fuel
  induction fuel with
  | zero =>
    intro tp h1 h2
    exact ⟨rfl, fun acc => rfl, rfl, rfl, rfl, rfl⟩
  | succ fuel ih =>
    intro tp h1 h2
    refine ⟨?_, ?_, ?_, ?_, ?_, ?_⟩
    · have hloop := (ih { tp with store := tp.store ++ [[RValue.slice []]] } h1 h2).2.1 []
      simp [toposortGenerateGrouped, h1, gc_slots, GraphToposort.alloc, pbind, hloop]
    · intro acc
      have hid := (ih tp h1 h2).2.2.1
      simp [toposortGroupedLoop, pbind, hid]
    · have hnode := (ih { tp with pending := pinsert tp.pending 0 } h1 h2).2.2.2.1
      simp [toposortGenerateGraphNodeID, h2, gc_node0, hnode]
    · have hbl := (ih { tp with
        store := tp.store ++ [List.replicate gcNode.input.length RValue.invalid] }
        h1 h2).2.2.2.2.2
      simp only [gcNode, mkProvide, groupSpec, List.length_cons, List.length_nil,
        List.replicate] at hbl
      simp [toposortGenerateGraphNode, GraphToposort.alloc, pbind, gcNode,
        mkProvide, groupSpec, hbl]
    · have hg := (ih tp h1 h2).1
      have : gcKey.group = true := rfl
      simp [toposortGenerateBaseCollect, this, pbind, hg]
    · have hb := (ih tp h1 h2).2.2.2.2.1
      have : extractGraphKey (groupSpec 9) = gcKey := rfl
      simp [toposortBaseLoop, pbind, this, hb]

/-- C10: the claim that toposort is total is false — on the concrete graph
whose dependency cycle passes only through a group port, planning does not
terminate for any amount of fuel (the Go planner recurses unboundedly: the
group path re-schedules the pending provider without any cycle check),
instead of returning a plan or an error. -/
theorem toposort_group_cycle_diverges :
    ∀ fuel : Nat, groupCycleGraph.toposort fuel [groupCycleRoot] = none := by
  intro fuel
  cases fuel with
  | zero => rfl
  | succ fuel =>
    have hbl := (groupCycle_all_none fuel { newGraphToposort with
      store := [List.replicate groupCycleRoot.input.length RValue.invalid] }
      rfl rfl).2.2.2.2.2
    simp only [newGraphToposort, groupCycleRoot, mkInvoke, groupSpec,
      List.length_cons, List.length_nil, List.replicate] at hbl
    simp [Graph.toposort, toposortInvokesLoop, toposortGenerateGraphNode,
      GraphToposort.alloc, newGraphToposort, pbind, groupCycleRoot, mkInvoke,
      groupSpec, hbl]



/-! ## C3: group aggregation preserves provider insertion order -/

/-- Two providers of group key 5 with parametric payloads, in insertion
order. -/
def groupPairGraph (v1 v2 : RValue) : Graph := Graph.ofNodes [
  mkProvide [] [groupSpec 5] (some "P1") none [RValue.slice [v1]],
  mkProvide [] [groupSpec 5] (some "P2") none [RValue.slice [v2]] ]

/-- The consumer root of group key 5 for the pair family. -/
def groupPairRoot : GraphNode := mkInvoke [groupSpec 5] (some "rootP") none

/-- Plan and then run, returning the final buffer store. -/
def finalStore (g : Graph) (invokes : List GraphNode) (fuel : Nat) : Option Store :=
  match g.toposort fuel invokes with
  | some (Except.ok (plan, store)) =>
    (runStateRun fuel { store := store, pending := plan, events := [] }).map
      (fun p => p.1.store)
  | _ => none

/-- A silent ordinary action (used to spell out computed plans). -/
def actOf (fm : Option String) (outs : List RValue) : RunAction :=
  { format := fm, behavior := ActBehavior.act none outs }

/-- The plan computed for the pair family. -/
def pairPlanList (v1 v2 : RValue) : List ExecutionNode :=
  [ExecutionNode.collectParam [] 2,
   ExecutionNode.user 2 3 (actOf (some "P1") [RValue.slice [v1]]),
   ExecutionNode.collectParam [] 4,
   ExecutionNode.user 4 5 (actOf (some "P2") [RValue.slice [v2]]),
   ExecutionNode.collectGroup
     [{ result := some 3, index := 0 }, { result := some 5, index := 0 }] 1,
   ExecutionNode.collectParam [{ result := some 1, index := 0 }] 0,
   ExecutionNode.user 0 6 (actOf (some "rootP") [])]

/-- The planner store computed for the pair family. -/
def pairStore : Store :=
  [[RValue.invalid], [RValue.slice []], [], [RValue.invalid], [], [RValue.invalid], []]

set_option maxHeartbeats 1000000 in
/-- Planning the pair family: buffer 1 is the group aggregation buffer, and
the collect-group step lists provider 0's slot before provider 1's. -/
theorem groupPair_plan (v1 v2 : RValue) :
    (groupPairGraph v1 v2).toposort 30 [groupPairRoot] =
      some (Except.ok (pairPlanList v1 v2, pairStore)) := by
  simp [groupPairGraph, groupPairRoot, Graph.ofNodes, Graph.insert, insertOutputs,
    appendSlot, slotsOf, alookup, aset, newGraph, mkProvide, mkInvoke, groupSpec,
    Graph.toposort, toposortInvokesLoop, toposortGenerateGraphNode, toposortBaseLoop,
    toposortCollectLoop, toposortGenerateBaseCollect, toposortGenerateCollect,
    toposortGenerateSingle, toposortGenerateGrouped, toposortGroupedLoop,
    toposortDecorateLoop, toposortGenerateGraphNodeID, finishGenerateID,
    newGraphToposort, GraphToposort.alloc, pbind, extractGraphKey, pinsert, perase,
    actOf, pairPlanList, pairStore]

/-- The initial run state of the pair family. -/
def pairInitState (v1 v2 : RValue) : RunState :=
  { store := pairStore, pending := pairPlanList v1 v2, events := [] }

/-- The final run store of the pair family. -/
def pairFinalStore (v1 v2 : RValue) : Store :=
  [[RValue.slice [v1, v2]], [RValue.slice [v1, v2]], [], [RValue.slice [v1]], [], [RValue.slice [v2]], []]

set_option maxHeartbeats 1000000 in
/-- Running the pair family's plan fills the consumer's input buffer 0 with
the aggregated sequence `[v1, v2]`. -/
theorem groupPair_run (v1 v2 : RValue) :
    runStateRun 30 (pairInitState v1 v2) =
    some ({ store := pairFinalStore v1 v2, pending := [], events := [] }, none) := by
  simp [runStateRun, execCollectParamLoop, execCollectGroupLoop, collectGet,
    appendSliceRV, writeCopy, copyList, actOf, pairPlanList, pairStore,
    pairInitState, pairFinalStore]

/-- C3: the provider loop of `toposortGenerateGrouped` emits the group's
source collects in exactly the order of the provide-slot list (which `insert`
builds in graph insertion order), and, end to end, for any two payloads the
two-provider family delivers to the consumer's input buffer the aggregated
sequence `[v1, v2]` in provider insertion order. -/
theorem group_aggregation_order :
    (∀ (g : Graph) (slots : List GraphNodeOutputSlot) (fuel : Nat)
      (tp : GraphToposort) (acc : List ExecutionCollect)
      (tp2 : GraphToposort) (items : List ExecutionCollect),
      toposortGroupedLoop g fuel tp slots acc = some (tp2, Except.ok items) →
      items.map (fun c => c.index) =
        acc.map (fun c => c.index) ++ slots.map (fun s => s.index)) ∧
    (∀ v1 v2 : RValue,
      (finalStore (groupPairGraph v1 v2) [groupPairRoot] 30).bind
          (fun st => st[0]?) =
        some [RValue.slice [v1, v2]]) := by
  constructor
  · intro g slots
    induction slots with
    | nil =>
      intro fuel tp acc tp2 items h
      cases fuel <;> · simp [toposortGroupedLoop] at h; simp [h.2]
    | cons slot rest ih =>
      intro fuel tp acc tp2 items h
      cases fuel with
      | zero => simp [toposortGroupedLoop] at h
      | succ fuel =>
        simp only [toposortGroupedLoop, pbind] at h
        split at h
        · exact absurd h (by simp)
        · exact absurd h (by simp)
        · next tp1 params heq =>
          have := ih fuel tp1 (acc ++ [{ result := some params, index := slot.index }])
            tp2 items h
          simpa using this
  · intro v1 v2
    have h1 := groupPair_plan v1 v2
    have hfs : finalStore (groupPairGraph v1 v2) [groupPairRoot] 30 =
        (runStateRun 30 (pairInitState v1 v2)).map (fun p => p.1.store) := by
      unfold finalStore
      rw [h1]
      rfl
    rw [hfs, groupPair_run]
    rfl

/-- The planner state after the witness's one-slot grouped loop. -/
def wLoopState : GraphToposort :=
  { outputs := [(0, 1)], grouped := [], decorated := [], decorating := [],
    pending := [], result := [ExecutionNode.collectParam [] 0,
      ExecutionNode.user 0 1 (actOf none [])],
    store := [[], [RValue.invalid]] }

/-- Witness for C3: the loop-order clause applied at a concrete one-slot
loop run (hypothesis discharged by evaluation), plus the end-to-end clause at
concrete payloads. -/
theorem group_aggregation_order_witness :
    toposortGroupedLoop noFmtGraph 10 newGraphToposort [{ id := 0, index := 0 }] [] =
      some (wLoopState, Except.ok [{ result := some 1, index := 0 }]) ∧
    ([{ result := some 1, index := 0 }] : List ExecutionCollect).map (fun c => c.index) =
      ([] : List ExecutionCollect).map (fun c => c.index) ++
        ([{ id := 0, index := 0 }] : List GraphNodeOutputSlot).map (fun s => s.index) ∧
    (finalStore (groupPairGraph (RValue.base "i1") (RValue.base "i2"))
        [groupPairRoot] 30).bind (fun st => st[0]?) =
      some [RValue.slice [RValue.base "i1", RValue.base "i2"]] := by
  have hloop : toposortGroupedLoop noFmtGraph 10 newGraphToposort
      [{ id := 0, index := 0 }] [] =
      some (wLoopState, Except.ok [{ result := some 1, index := 0 }]) := by
    simp [noFmtGraph, Graph.ofNodes, Graph.insert, insertOutputs, appendSlot,
      slotsOf, alookup, aset, newGraph, plainSpec, extractGraphKey,
      toposortGroupedLoop, toposortGenerateGraphNodeID, toposortGenerateGraphNode,
      toposortBaseLoop, toposortCollectLoop, finishGenerateID, newGraphToposort,
      GraphToposort.alloc, pbind, pinsert, perase, wLoopState, actOf]
  refine ⟨hloop, ?_, group_aggregation_order.2 (RValue.base "i1") (RValue.base "i2")⟩
  exact group_aggregation_order.1 noFmtGraph [{ id := 0, index := 0 }] 10
    newGraphToposort [] wLoopState [{ result := some 1, index := 0 }] hloop

/-! ## C4: each graph node contributes at most one user-action step -/

/-! ## C4: no duplicated user-action step in any produced plan -/

/-- The result buffers of the user-action steps of a plan, in plan order. -/
def userResults (plan : List ExecutionNode) : List Nat :=
  plan.filterMap (fun n =>
    match n with
    | ExecutionNode.user _ r _ => some r
    | _ => none)

/-- Planner invariant: the user steps emitted so far have pairwise distinct
result buffers, each of which is an allocated store slot. -/
def UserStepsOK (tp : GraphToposort) : Prop :=
  (userResults tp.result).Nodup ∧ ∀ r ∈ userResults tp.result, r < tp.store.length

theorem userResults_append (a b : List ExecutionNode) :
    userResults (a ++ b) = userResults a ++ userResults b := by
  simp [userResults, List.filterMap_append]

theorem userResults_user (p r : Nat) (v : RunAction) :
    userResults [ExecutionNode.user p r v] = [r] := rfl

theorem userResults_collectParam (items : List ExecutionCollect) (b : Nat) :
    userResults [ExecutionNode.collectParam items b] = [] := rfl

theorem userResults_collectGroup (items : List ExecutionCollect) (b : Nat) :
    userResults [ExecutionNode.collectGroup items b] = [] := rfl

/-- State changes that keep the emitted plan and only grow the store
preserve the invariant. -/
theorem userStepsOK_same (tp tp2 : GraphToposort) (hres : tp2.result = tp.result)
    (hst : tp.store.length ≤ tp2.store.length) (h : UserStepsOK tp) :
    UserStepsOK tp2 := by
  refine ⟨hres ▸ h.1, fun r hr => lt_of_lt_of_le (h.2 r ?_) hst⟩
  rwa [hres] at hr

/-- Appending a plumbing step (no user action) preserves the invariant. -/
theorem userStepsOK_plain (tp tp2 : GraphToposort) (n : ExecutionNode)
    (hn : userResults [n] = []) (hres : tp2.result = tp.result ++ [n])
    (hst : tp.store.length ≤ tp2.store.length) (h : UserStepsOK tp) :
    UserStepsOK tp2 := by
  constructor
  · rw [hres, userResults_append, hn, List.append_nil]
    exact h.1
  · intro r hr
    rw [hres, userResults_append, hn, List.append_nil] at hr
    exact lt_of_lt_of_le (h.2 r hr) hst

/-- Preservation of `UserStepsOK` by every planner function: whatever a
planner call returns (value or error), the plan it has accumulated still has
pairwise distinct, store-allocated user-step buffers. -/
theorem userStepsOK_pres : ∀ fuel : Nat,
    (∀ (g : Graph) (tp : GraphToposort) (id : Nat) (tp2 : GraphToposort)
      (r : Except RunErr Nat), UserStepsOK tp →
      toposortGenerateGraphNodeID g fuel tp id = some (tp2, r) → UserStepsOK tp2) ∧
    (∀ (g : Graph) (tp : GraphToposort) (key : GraphNodeKey) (tp2 : GraphToposort)
      (r : Except RunErr ExecutionCollect), UserStepsOK tp →
      toposortGenerateSingle g fuel tp key = some (tp2, r) → UserStepsOK tp2) ∧
    (∀ (g : Graph) (tp : GraphToposort) (key : GraphNodeKey) (tp2 : GraphToposort)
      (r : Except RunErr ExecutionCollect), UserStepsOK tp →
      toposortGenerateGrouped g fuel tp key = some (tp2, r) → UserStepsOK tp2) ∧
    (∀ (g : Graph) (tp : GraphToposort) (slots : List GraphNodeOutputSlot)
      (acc : List ExecutionCollect) (tp2 : GraphToposort)
      (r : Except RunErr (List ExecutionCollect)), UserStepsOK tp →
      toposortGroupedLoop g fuel tp slots acc = some (tp2, r) → UserStepsOK tp2) ∧
    (∀ (g : Graph) (tp : GraphToposort) (key : GraphNodeKey) (tp2 : GraphToposort)
      (r : Except RunErr ExecutionCollect), UserStepsOK tp →
      toposortGenerateBaseCollect g fuel tp key = some (tp2, r) → UserStepsOK tp2) ∧
    (∀ (g : Graph) (tp : GraphToposort) (spec : Spec) (tp2 : GraphToposort)
      (r : Except RunErr ExecutionCollect), UserStepsOK tp →
      toposortGenerateCollect g fuel tp spec = some (tp2, r) → UserStepsOK tp2) ∧
    (∀ (g : Graph) (tp : GraphToposort) (key : GraphNodeKey)
      (slots : List GraphNodeOutputSlot) (tp2 : GraphToposort)
      (r : Except RunErr Unit), UserStepsOK tp →
      toposortDecorateLoop g fuel tp key slots = some (tp2, r) → UserStepsOK tp2) ∧
    (∀ (g : Graph) (tp : GraphToposort) (current : GraphNode) (tp2 : GraphToposort)
      (r : Except RunErr Nat), UserStepsOK tp →
      toposortGenerateGraphNode g fuel tp current = some (tp2, r) → UserStepsOK tp2) ∧
    (∀ (g : Graph) (tp : GraphToposort) (inputs : List Spec) (tp2 : GraphToposort)
      (r : Except RunErr Unit), UserStepsOK tp →
      toposortBaseLoop g fuel tp inputs = some (tp2, r) → UserStepsOK tp2) ∧
    (∀ (g : Graph) (tp : GraphToposort) (inputs : List Spec)
      (acc : List ExecutionCollect) (tp2 : GraphToposort)
      (r : Except RunErr (List ExecutionCollect)), UserStepsOK tp →
      toposortCollectLoop g fuel tp inputs acc = some (tp2, r) → UserStepsOK tp2) := by
  intro fuel
  induction fuel with
  | zero =>
    refine ⟨?_, ?_, ?_, ?_, ?_, ?_, ?_, ?_, ?_, ?_⟩
    · intro g tp id tp2 r hok h
      simp [toposortGenerateGraphNodeID] at h
    · intro g tp key tp2 r hok h
      simp [toposortGenerateSingle] at h
    · intro g tp key tp2 r hok h
      simp [toposortGenerateGrouped] at h
    · intro g tp slots acc tp2 r hok h
      cases slots with
      | nil =>
        simp only [toposortGroupedLoop, Option.some.injEq, Prod.mk.injEq] at h
        exact h.1 ▸ hok
      | cons x xs => simp [toposortGroupedLoop] at h
    · intro g tp key tp2 r hok h
      simp [toposortGenerateBaseCollect] at h
    · intro g tp spec tp2 r hok h
      simp [toposortGenerateCollect] at h
    · intro g tp key slots tp2 r hok h
      cases slots with
      | nil =>
        simp only [toposortDecorateLoop, Option.some.injEq, Prod.mk.injEq] at h
        exact h.1 ▸ hok
      | cons x xs => simp [toposortDecorateLoop] at h
    · intro g tp current tp2 r hok h
      simp [toposortGenerateGraphNode] at h
    · intro g tp inputs tp2 r hok h
      cases inputs with
      | nil =>
        simp only [toposortBaseLoop, Option.some.injEq, Prod.mk.injEq] at h
        exact h.1 ▸ hok
      | cons x xs => simp [toposortBaseLoop] at h
    · intro g tp inputs acc tp2 r hok h
      cases inputs with
      | nil =>
        simp only [toposortCollectLoop, Option.some.injEq, Prod.mk.injEq] at h
        exact h.1 ▸ hok
      | cons x xs => simp [toposortCollectLoop] at h
  | succ fuel ih =>
    obtain ⟨ihID, ihSingle, ihGrouped, ihGLoop, ihBase, ihCollect, ihDLoop,
      ihNode, ihBLoop, ihCLoop⟩ := ih
    refine ⟨?_, ?_, ?_, ?_, ?_, ?_, ?_, ?_, ?_, ?_⟩
    · -- toposortGenerateGraphNodeID
      intro g tp id tp2 r hok h
      simp only [toposortGenerateGraphNodeID] at h
      split at h
      · simp only [Option.some.injEq, Prod.mk.injEq] at h
        exact h.1 ▸ hok
      · split at h
        · simp at h
        · next node heq2 =>
          rw [Option.map_eq_some'] at h
          obtain ⟨⟨tp1, r1⟩, hcall, hfin⟩ := h
          have hokp : UserStepsOK { tp with pending := pinsert tp.pending id } :=
            userStepsOK_same tp _ rfl (le_refl _) hok
          have hok1 := ihNode g _ node tp1 r1 hokp hcall
          cases r1 with
          | error e =>
            simp only [finishGenerateID] at hfin
            rw [Prod.mk.injEq] at hfin
            exact hfin.1 ▸ userStepsOK_same tp1 _ rfl (le_refl _) hok1
          | ok params =>
            simp only [finishGenerateID] at hfin
            rw [Prod.mk.injEq] at hfin
            exact hfin.1 ▸ userStepsOK_same tp1 _ rfl (le_refl _) hok1
    · -- toposortGenerateSingle
      intro g tp key tp2 r hok h
      simp only [toposortGenerateSingle] at h
      split at h
      · simp only [Option.some.injEq, Prod.mk.injEq] at h
        exact h.1 ▸ hok
      · split at h
        · split at h
          · simp at h
          · simp only [Option.some.injEq, Prod.mk.injEq] at h
            exact h.1 ▸ hok
        · simp only [pbind] at h
          split at h
          · simp at h
          · next tp1 e heq =>
            simp only [Option.some.injEq, Prod.mk.injEq] at h
            exact h.1 ▸ ihID g tp _ tp1 (Except.error e) hok heq
          · next tp1 params heq =>
            simp only [Option.some.injEq, Prod.mk.injEq] at h
            exact h.1 ▸ ihID g tp _ tp1 (Except.ok params) hok heq
      · simp only [Option.some.injEq, Prod.mk.injEq] at h
        exact h.1 ▸ hok
    · -- toposortGenerateGrouped
      intro g tp key tp2 r hok h
      simp only [toposortGenerateGrouped, GraphToposort.alloc] at h
      split at h
      · simp only [Option.some.injEq, Prod.mk.injEq] at h
        exact h.1 ▸ hok
      · simp only [pbind] at h
        have hok0 : UserStepsOK { tp with store := tp.store ++ [[RValue.slice []]] } :=
          userStepsOK_same tp _ rfl (by simp) hok
        split at h
        · simp at h
        · next tp1 e heq =>
          simp only [Option.some.injEq, Prod.mk.injEq] at h
          exact h.1 ▸ ihGLoop g _ _ [] tp1 (Except.error e) hok0 heq
        · next tp1 items heq =>
          have hok1 := ihGLoop g _ _ [] tp1 (Except.ok items) hok0 heq
          simp only [Option.some.injEq, Prod.mk.injEq] at h
          refine h.1 ▸ userStepsOK_plain tp1 _ _ ?_ rfl (le_refl _) hok1
          simp [userResults]
    · -- toposortGroupedLoop
      intro g tp slots acc tp2 r hok h
      cases slots with
      | nil =>
        simp only [toposortGroupedLoop, Option.some.injEq, Prod.mk.injEq] at h
        exact h.1 ▸ hok
      | cons slot rest =>
        simp only [toposortGroupedLoop, pbind] at h
        split at h
        · simp at h
        · next tp1 e heq =>
          simp only [Option.some.injEq, Prod.mk.injEq] at h
          exact h.1 ▸ ihID g tp _ tp1 (Except.error e) hok heq
        · next tp1 params heq =>
          exact ihGLoop g tp1 rest _ tp2 r
            (ihID g tp _ tp1 (Except.ok params) hok heq) h
    · -- toposortGenerateBaseCollect
      intro g tp key tp2 r hok h
      simp only [toposortGenerateBaseCollect, pbind] at h
      split at h
      · simp at h
      · next tp1 e heq =>
        simp only [Option.some.injEq, Prod.mk.injEq] at h
        have hok1 : UserStepsOK tp1 := by
          by_cases hg : key.group
          · simp only [hg, if_true] at heq
            exact ihGrouped g tp key tp1 (Except.error e) hok heq
          · simp only [hg, if_false] at heq
            exact ihSingle g tp key tp1 (Except.error e) hok heq
        exact h.1 ▸ hok1
      · next tp1 base heq =>
        have hok1 : UserStepsOK tp1 := by
          by_cases hg : key.group
          · simp only [hg, if_true] at heq
            exact ihGrouped g tp key tp1 (Except.ok base) hok heq
          · simp only [hg, if_false] at heq
            exact ihSingle g tp key tp1 (Except.ok base) hok heq
        split at h
        · simp only [Option.some.injEq, Prod.mk.injEq] at h
          exact h.1 ▸ hok1
        · split at h
          · simp only [Option.some.injEq, Prod.mk.injEq] at h
            exact h.1 ▸ hok1
          · split at h
            · simp only [Option.some.injEq, Prod.mk.injEq] at h
              exact h.1 ▸ hok1
            · simp only [Option.some.injEq, Prod.mk.injEq] at h
              exact h.1 ▸ userStepsOK_same tp1 _ rfl (le_refl _) hok1
    · -- toposortGenerateCollect
      intro g tp spec tp2 r hok h
      simp only [toposortGenerateCollect] at h
      split at h
      · simp at h
      · next tp1 e heq =>
        simp only [Option.some.injEq, Prod.mk.injEq] at h
        exact h.1 ▸ ihBase g tp _ tp1 (Except.error e) hok heq
      · next tp1 base heq =>
        have hok1 := ihBase g tp _ tp1 (Except.ok base) hok heq
        split at h
        · split at h
          · simp only [Option.some.injEq, Prod.mk.injEq] at h
            exact h.1 ▸ hok1
          · simp only [Option.some.injEq, Prod.mk.injEq] at h
            exact h.1 ▸ hok1
        · split at h
          · simp only [Option.some.injEq, Prod.mk.injEq] at h
            exact h.1 ▸ hok1
          · split at h
            · simp only [Option.some.injEq, Prod.mk.injEq] at h
              exact h.1 ▸ hok1
            · simp only [pbind] at h
              split at h
              · simp at h
              · next tp3 e heq2 =>
                simp only [Option.some.injEq, Prod.mk.injEq] at h
                exact h.1 ▸ ihDLoop g tp1 _ _ tp3 (Except.error e) hok1 heq2
              · next tp3 u heq2 =>
                have hok3 := ihDLoop g tp1 _ _ tp3 (Except.ok u) hok1 heq2
                simp only [Option.some.injEq, Prod.mk.injEq] at h
                exact h.1 ▸ userStepsOK_same tp3 _ rfl (le_refl _) hok3
    · -- toposortDecorateLoop
      intro g tp key slots tp2 r hok h
      cases slots with
      | nil =>
        simp only [toposortDecorateLoop, Option.some.injEq, Prod.mk.injEq] at h
        exact h.1 ▸ hok
      | cons slot rest =>
        simp only [toposortDecorateLoop, pbind] at h
        split at h
        · simp at h
        · next tp1 e heq =>
          simp only [Option.some.injEq, Prod.mk.injEq] at h
          exact h.1 ▸ ihID g tp _ tp1 (Except.error e) hok heq
        · next tp1 params heq =>
          have hok1 := ihID g tp _ tp1 (Except.ok params) hok heq
          have hokd : UserStepsOK { tp1 with
              decorating := aset tp1.decorating key ⟨some params, slot.index⟩ } :=
            userStepsOK_same tp1 _ rfl (le_refl _) hok1
          exact ihDLoop g _ key rest tp2 r hokd h
    · -- toposortGenerateGraphNode
      intro g tp current tp2 r hok h
      simp only [toposortGenerateGraphNode, GraphToposort.alloc, pbind] at h
      have hok0 : UserStepsOK { tp with
          store := tp.store ++ [List.replicate current.input.length RValue.invalid] } :=
        userStepsOK_same tp _ rfl (by simp) hok
      split at h
      · simp at h
      · next tp1 e heq =>
        simp only [Option.some.injEq, Prod.mk.injEq] at h
        exact h.1 ▸ ihBLoop g _ _ tp1 (Except.error e) hok0 heq
      · next tp1 u heq =>
        have hok1 := ihBLoop g _ _ tp1 (Except.ok u) hok0 heq
        split at h
        · simp at h
        · next tp3 e heq2 =>
          simp only [Option.some.injEq, Prod.mk.injEq] at h
          exact h.1 ▸ ihCLoop g tp1 _ [] tp3 (Except.error e) hok1 heq2
        · next tp3 items heq2 =>
          have hok3 := ihCLoop g tp1 _ [] tp3 (Except.ok items) hok1 heq2
          have hok4 : UserStepsOK { tp3 with result := tp3.result ++
              [ExecutionNode.collectParam items (List.length tp.store)] } :=
            userStepsOK_plain tp3 _ _ (by simp [userResults]) rfl (le_refl _) hok3
          have hok4a : (userResults (tp3.result ++
              [ExecutionNode.collectParam items (List.length tp.store)])).Nodup := hok4.1
          have hok4b : ∀ x ∈ userResults (tp3.result ++
              [ExecutionNode.collectParam items (List.length tp.store)]),
              x < tp3.store.length := hok4.2
          simp only [Option.some.injEq, Prod.mk.injEq] at h
          obtain ⟨hteq, -⟩ := h
          subst hteq
          constructor
          · show (userResults ((tp3.result ++
              [ExecutionNode.collectParam items (List.length tp.store)]) ++
              [ExecutionNode.user (List.length tp.store) (List.length tp3.store)
                current.value])).Nodup
            rw [userResults_append, userResults_user]
            refine List.nodup_append.mpr ⟨hok4a, List.nodup_singleton _, ?_⟩
            intro x hx hy
            rw [List.mem_singleton] at hy
            have := hok4b _ hx
            omega
          · intro x hx
            have hx2 : x ∈ userResults ((tp3.result ++
                [ExecutionNode.collectParam items (List.length tp.store)]) ++
                [ExecutionNode.user (List.length tp.store) (List.length tp3.store)
                  current.value]) := hx
            show x < (tp3.store ++
              [List.replicate current.output.length RValue.invalid]).length
            have hlen : (tp3.store ++
                [List.replicate current.output.length RValue.invalid]).length =
                tp3.store.length + 1 := by simp
            rw [hlen]
            rw [userResults_append, userResults_user] at hx2
            rcases List.mem_append.mp hx2 with hx3 | hx3
            · have := hok4b _ hx3
              omega
            · rw [List.mem_singleton] at hx3
              omega
    · -- toposortBaseLoop
      intro g tp inputs tp2 r hok h
      cases inputs with
      | nil =>
        simp only [toposortBaseLoop, Option.some.injEq, Prod.mk.injEq] at h
        exact h.1 ▸ hok
      | cons input rest =>
        simp only [toposortBaseLoop, pbind] at h
        split at h
        · simp at h
        · next tp1 e heq =>
          simp only [Option.some.injEq, Prod.mk.injEq] at h
          exact h.1 ▸ ihBase g tp _ tp1 (Except.error e) hok heq
        · next tp1 c heq =>
          exact ihBLoop g tp1 rest tp2 r
            (ihBase g tp _ tp1 (Except.ok c) hok heq) h
    · -- toposortCollectLoop
      intro g tp inputs acc tp2 r hok h
      cases inputs with
      | nil =>
        simp only [toposortCollectLoop, Option.some.injEq, Prod.mk.injEq] at h
        exact h.1 ▸ hok
      | cons input rest =>
        simp only [toposortCollectLoop, pbind] at h
        split at h
        · simp at h
        · next tp1 e heq =>
          simp only [Option.some.injEq, Prod.mk.injEq] at h
          exact h.1 ▸ ihCollect g tp _ tp1 (Except.error e) hok heq
        · next tp1 c heq =>
          exact ihCLoop g tp1 rest _ tp2 r
            (ihCollect g tp _ tp1 (Except.ok c) hok heq) h

/-- Memoised skip (`toposortGenerateGraphNodeID`, part_000 memo check): once a
node's outputs are recorded, a later request for the node returns the recorded
parameter buffer with the planner state unchanged — no step is emitted and the
node is not executed again. -/
theorem toposortGenerateGraphNodeID_memo (g : Graph) (fuel : Nat) (tp : GraphToposort)
    (id params : Nat) (h : alookup tp.outputs id = some params) :
    toposortGenerateGraphNodeID g (fuel + 1) tp id = some (tp, Except.ok params) := by
  simp [toposortGenerateGraphNodeID, h]

/-- A successful run of `toposortGenerateGraphNode` contributes exactly one
user-action step to the plan: the final plan extends an intermediate plan by
one collect step and one user step carrying the node's action, and exactly one
user result buffer is added. -/
theorem toposortGenerateGraphNode_emits (g : Graph) (fuel : Nat) (tp tp2 : GraphToposort)
    (current : GraphNode) (rid : Nat)
    (h : toposortGenerateGraphNode g (fuel + 1) tp current = some (tp2, Except.ok rid)) :
    ∃ (mid : GraphToposort) (items : List ExecutionCollect),
      tp2.result = (mid.result ++
        [ExecutionNode.collectParam items tp.store.length]) ++
        [ExecutionNode.user tp.store.length rid current.value] ∧
      userResults tp2.result = userResults mid.result ++ [rid] := by
  simp only [toposortGenerateGraphNode, GraphToposort.alloc, pbind] at h
  split at h
  · simp at h
  · simp at h
  · next tp1 u heq =>
    split at h
    · simp at h
    · simp at h
    · next tp3 items heq2 =>
      simp only [Option.some.injEq, Prod.mk.injEq, Except.ok.injEq] at h
      obtain ⟨hteq, hrid⟩ := h
      refine ⟨tp3, items, ?_, ?_⟩
      · rw [← hteq, ← hrid]
      · rw [← hteq, ← hrid]
        show userResults ((tp3.result ++
            [ExecutionNode.collectParam items (List.length tp.store)]) ++
            [ExecutionNode.user (List.length tp.store) (List.length tp3.store)
              current.value]) =
          userResults tp3.result ++ [List.length tp3.store]
        rw [userResults_append, userResults_append, userResults_user,
          userResults_collectParam, List.append_nil]

/-- The root invoke loop preserves the user-step invariant. -/
theorem userStepsOK_invokes : ∀ (invokes : List GraphNode) (g : Graph) (fuel : Nat)
    (tp tp2 : GraphToposort) (r : Except RunErr Unit),
    UserStepsOK tp → toposortInvokesLoop g fuel tp invokes = some (tp2, r) →
    UserStepsOK tp2 := by
  intro invokes
  induction invokes with
  | nil =>
    intro g fuel tp tp2 r hok h
    simp only [toposortInvokesLoop, Option.some.injEq, Prod.mk.injEq] at h
    exact h.1 ▸ hok
  | cons invoke rest ih =>
    intro g fuel tp tp2 r hok h
    simp only [toposortInvokesLoop, pbind] at h
    split at h
    · simp at h
    · next tp1 e heq =>
      simp only [Option.some.injEq, Prod.mk.injEq] at h
      exact h.1 ▸ (userStepsOK_pres fuel).2.2.2.2.2.2.2.1 g tp invoke tp1
        (Except.error e) hok heq
    · next tp1 rid heq =>
      exact ih g fuel tp1 tp2 r
        ((userStepsOK_pres fuel).2.2.2.2.2.2.2.1 g tp invoke tp1
          (Except.ok rid) hok heq) h

/-- Every successfully produced plan has pairwise-distinct user-step result
buffers: no user-action step is ever duplicated in a plan. -/
theorem toposort_nodup_helper (g : Graph) (fuel : Nat) (invokes : List GraphNode)
    (plan : List ExecutionNode) (store : Store)
    (h : Graph.toposort g fuel invokes = some (Except.ok (plan, store))) :
    (userResults plan).Nodup := by
  have hok0 : UserStepsOK newGraphToposort :=
    ⟨List.nodup_nil, by intro r hr; simp [newGraphToposort, userResults] at hr⟩
  unfold Graph.toposort at h
  split at h
  · simp at h
  · simp at h
  · next tp u heq =>
    simp only [Option.some.injEq, Except.ok.injEq, Prod.mk.injEq] at h
    exact h.1 ▸ (userStepsOK_invokes invokes g fuel newGraphToposort tp
      (Except.ok u) hok0 heq).1

/-- Concrete planner state whose outputs table already records node 0. -/
def wMemoTP : GraphToposort :=
  { newGraphToposort with outputs := [(0, 5)] }

/-- A minimal provider with no inputs and one output. -/
def wNode : GraphNode :=
  mkProvide [] [plainSpec 1] (some "w") none [RValue.base "x"]

/-- The planner state after executing `wNode` from the fresh state. -/
def wNodeTP : GraphToposort :=
  { outputs := [], grouped := [], decorated := [], decorating := [],
    pending := [],
    result := [ExecutionNode.collectParam [] 0,
      ExecutionNode.user 0 1 wNode.value],
    store := [[], [RValue.invalid]] }

set_option maxHeartbeats 4000000 in
/-- C4: in every plan, each graph node contributes at most one user-action
step. A node whose outputs are already materialised is skipped by the memo
check: `toposortGenerateGraphNodeID` returns the recorded buffer with the
planner state unchanged, so no step is added and the node is not executed
again. A node that is actually executed contributes exactly one user step,
carrying its action. In every plan a successful `toposort` produces, the
user steps write pairwise-distinct result buffers, so no node's single
execution step is ever duplicated. Concretely, in the scenario-3 graph each
reachable node appears exactly once in the plan, `redundantObjectC` (node
`*C`, reachable from no consumer root) contributes no step, and the run's
event log matches the repository test and contains no "provide c". -/
theorem each_node_at_most_one_user_step :
    (∀ (g : Graph) (fuel : Nat) (tp : GraphToposort) (id params : Nat),
      alookup tp.outputs id = some params →
      toposortGenerateGraphNodeID g (fuel + 1) tp id =
        some (tp, Except.ok params)) ∧
    (∀ (g : Graph) (fuel : Nat) (tp tp2 : GraphToposort) (current : GraphNode)
      (rid : Nat),
      toposortGenerateGraphNode g (fuel + 1) tp current =
        some (tp2, Except.ok rid) →
      ∃ (mid : GraphToposort) (items : List ExecutionCollect),
        tp2.result = (mid.result ++
          [ExecutionNode.collectParam items tp.store.length]) ++
          [ExecutionNode.user tp.store.length rid current.value] ∧
        userResults tp2.result = userResults mid.result ++ [rid]) ∧
    (∀ (g : Graph) (fuel : Nat) (invokes : List GraphNode)
      (plan : List ExecutionNode) (store : Store),
      Graph.toposort g fuel invokes = some (Except.ok (plan, store)) →
      (userResults plan).Nodup) ∧
    userFormats (planOf (scenario3Graph.toposort 60 [scenario3Root])) =
      [some "supply", some "stackObjectB", some "decorateObjectD",
       some "provideObjectA", some "invoke"] ∧
    coreRun scenario3Graph [scenario3Root] 60 60 =
      some (Except.ok (), ["stack b", "provide d", "provide a", "invoke", "defer b"]) ∧
    (["stack b", "provide d", "provide a", "invoke", "defer b"].count "provide c" = 0) := by
  refine ⟨fun g fuel tp id params h => toposortGenerateGraphNodeID_memo g fuel tp id params h,
    fun g fuel tp tp2 current rid h => toposortGenerateGraphNode_emits g fuel tp tp2 current rid h,
    fun g fuel invokes plan store h => toposort_nodup_helper g fuel invokes plan store h,
    ?_, ?_, by decide⟩ <;>
    simp [scenario3Graph, scenario3Root, scNodeA, scNodeB, scNodeC, scNodeD, scNodeSupply,
      Graph.ofNodes, Graph.insert, insertOutputs, appendSlot, slotsOf, alookup, aset,
      newGraph, mkProvide, mkStack, mkInvoke, plainSpec, groupSpec, decoSpec,
      Graph.toposort, toposortInvokesLoop, toposortGenerateGraphNode, toposortBaseLoop,
      toposortCollectLoop, toposortGenerateBaseCollect, toposortGenerateCollect,
      toposortGenerateSingle, toposortGenerateGrouped, toposortGroupedLoop,
      toposortDecorateLoop, toposortGenerateGraphNodeID, finishGenerateID,
      newGraphToposort, GraphToposort.alloc, pbind, extractGraphKey, pinsert, perase,
      Graph.nodeString, GraphNode.displayString, aerase, ExecutionCollect.zero,
      coreRun, runStateRun, execCollectParamLoop, execCollectGroupLoop, collectGet,
      appendSliceRV, writeCopy, copyList, planOf, userFormats]

/-- The memo skip, single-step emission and distinctness clauses of the
at-most-one-step theorem, applied at concrete inputs. -/
theorem each_node_at_most_one_user_step_witness :
    toposortGenerateGraphNodeID bareGraph 3 wMemoTP 0 = some (wMemoTP, Except.ok 5) ∧
    (∃ (mid : GraphToposort) (items : List ExecutionCollect),
      wNodeTP.result = (mid.result ++
        [ExecutionNode.collectParam items newGraphToposort.store.length]) ++
        [ExecutionNode.user newGraphToposort.store.length 1 wNode.value] ∧
      userResults wNodeTP.result = userResults mid.result ++ [1]) ∧
    (userResults ([] : List ExecutionNode)).Nodup := by
  refine ⟨each_node_at_most_one_user_step.1 bareGraph 2 wMemoTP 0 5 rfl,
    each_node_at_most_one_user_step.2.1 bareGraph 0 newGraphToposort wNodeTP wNode 1 rfl,
    each_node_at_most_one_user_step.2.2.1 bareGraph 1 [] [] [] rfl⟩

/-! ## C9: planning errors abort planning; the discarded base-collect error is
unreachable -/

/-- Planner state evolution: the pending set never grows across a call, and
the `outputs` and `grouped` memo tables never lose entries. -/
def StateMono (tp tp2 : GraphToposort) : Prop :=
  (∀ x, x ∈ tp2.pending → x ∈ tp.pending) ∧
  (∀ id, (alookup tp.outputs id).isSome → (alookup tp2.outputs id).isSome) ∧
  (∀ k, (alookup tp.grouped k).isSome → (alookup tp2.grouped k).isSome)

theorem stateMono_refl (tp : GraphToposort) : StateMono tp tp :=
  ⟨fun _ h => h, fun _ h => h, fun _ h => h⟩

theorem stateMono_trans {tp1 tp2 tp3 : GraphToposort}
    (h1 : StateMono tp1 tp2) (h2 : StateMono tp2 tp3) : StateMono tp1 tp3 :=
  ⟨fun x h => h1.1 x (h2.1 x h), fun i h => h2.2.1 i (h1.2.1 i h),
   fun k h => h2.2.2 k (h1.2.2 k h)⟩

/-- A state change that keeps pending, outputs and grouped is monotone. -/
theorem stateMono_keep (tp tp2 : GraphToposort) (hp : tp2.pending = tp.pending)
    (ho : tp2.outputs = tp.outputs) (hg : tp2.grouped = tp.grouped) :
    StateMono tp tp2 := by
  refine ⟨?_, ?_, ?_⟩
  · intro x hx
    rw [hp] at hx
    exact hx
  · intro i hi
    rw [ho]
    exact hi
  · intro k hk
    rw [hg]
    exact hk

theorem mem_perase {p : List Nat} {x id : Nat} (h : x ∈ perase p id) :
    x ∈ p ∧ x ≠ id := by
  simp only [perase, List.mem_filter, decide_eq_true_eq] at h
  exact h

theorem mem_pinsert {p : List Nat} {x id : Nat} (h : x ∈ pinsert p id) :
    x = id ∨ x ∈ p := by
  by_cases hm : id ∈ p
  · simp only [pinsert, hm, if_true] at h
    exact Or.inr h
  · simp only [pinsert, hm, if_false, List.mem_append, List.mem_singleton] at h
    exact h.symm

theorem alookup_aset_isSome {κ α : Type} [DecidableEq κ] (m : List (κ × α)) (k j : κ)
    (v : α) (h : (alookup m j).isSome) : (alookup (aset m k v) j).isSome := by
  by_cases hk : k = j
  · subst hk
    rw [alookup_aset_self]
    rfl
  · rw [alookup_aset_ne m k j v hk]
    exact h

/-- The pending bookkeeping of `toposortGenerateGraphNodeID` is shrinking:
after the insert/recurse/erase cycle, pending is within the original set. -/
theorem pend_perase_mono (tp tp1 : GraphToposort) (id : Nat)
    (h : StateMono { tp with pending := pinsert tp.pending id } tp1) :
    ∀ x, x ∈ perase tp1.pending id → x ∈ tp.pending := by
  intro x hx
  have hx2 := mem_perase hx
  rcases mem_pinsert (h.1 x hx2.1) with h1 | h1
  · exact absurd h1 hx2.2
  · exact h1

set_option maxHeartbeats 1000000 in
/-- Monotonicity of every planner function: whatever a call returns, the
pending set has not grown and the memo tables have not lost entries. -/
theorem toposortMono : ∀ fuel : Nat,
    (∀ (g : Graph) (tp : GraphToposort) (id : Nat) (tp2 : GraphToposort)
      (r : Except RunErr Nat),
      toposortGenerateGraphNodeID g fuel tp id = some (tp2, r) → StateMono tp tp2) ∧
    (∀ (g : Graph) (tp : GraphToposort) (key : GraphNodeKey) (tp2 : GraphToposort)
      (r : Except RunErr ExecutionCollect),
      toposortGenerateSingle g fuel tp key = some (tp2, r) → StateMono tp tp2) ∧
    (∀ (g : Graph) (tp : GraphToposort) (key : GraphNodeKey) (tp2 : GraphToposort)
      (r : Except RunErr ExecutionCollect),
      toposortGenerateGrouped g fuel tp key = some (tp2, r) → StateMono tp tp2) ∧
    (∀ (g : Graph) (tp : GraphToposort) (slots : List GraphNodeOutputSlot)
      (acc : List ExecutionCollect) (tp2 : GraphToposort)
      (r : Except RunErr (List ExecutionCollect)),
      toposortGroupedLoop g fuel tp slots acc = some (tp2, r) → StateMono tp tp2) ∧
    (∀ (g : Graph) (tp : GraphToposort) (key : GraphNodeKey) (tp2 : GraphToposort)
      (r : Except RunErr ExecutionCollect),
      toposortGenerateBaseCollect g fuel tp key = some (tp2, r) → StateMono tp tp2) ∧
    (∀ (g : Graph) (tp : GraphToposort) (spec : Spec) (tp2 : GraphToposort)
      (r : Except RunErr ExecutionCollect),
      toposortGenerateCollect g fuel tp spec = some (tp2, r) → StateMono tp tp2) ∧
    (∀ (g : Graph) (tp : GraphToposort) (key : GraphNodeKey)
      (slots : List GraphNodeOutputSlot) (tp2 : GraphToposort)
      (r : Except RunErr Unit),
      toposortDecorateLoop g fuel tp key slots = some (tp2, r) → StateMono tp tp2) ∧
    (∀ (g : Graph) (tp : GraphToposort) (current : GraphNode) (tp2 : GraphToposort)
      (r : Except RunErr Nat),
      toposortGenerateGraphNode g fuel tp current = some (tp2, r) → StateMono tp tp2) ∧
    (∀ (g : Graph) (tp : GraphToposort) (inputs : List Spec) (tp2 : GraphToposort)
      (r : Except RunErr Unit),
      toposortBaseLoop g fuel tp inputs = some (tp2, r) → StateMono tp tp2) ∧
    (∀ (g : Graph) (tp : GraphToposort) (inputs : List Spec)
      (acc : List ExecutionCollect) (tp2 : GraphToposort)
      (r : Except RunErr (List ExecutionCollect)),
      toposortCollectLoop g fuel tp inputs acc = some (tp2, r) → StateMono tp tp2) := by
  intro fuel
  induction fuel with
  | zero =>
    refine ⟨?_, ?_, ?_, ?_, ?_, ?_, ?_, ?_, ?_, ?_⟩
    · intro g tp id tp2 r h
      simp [toposortGenerateGraphNodeID] at h
    · intro g tp key tp2 r h
      simp [toposortGenerateSingle] at h
    · intro g tp key tp2 r h
      simp [toposortGenerateGrouped] at h
    · intro g tp slots acc tp2 r h
      cases slots with
      | nil =>
        simp only [toposortGroupedLoop, Option.some.injEq, Prod.mk.injEq] at h
        obtain ⟨h1, -⟩ := h
        subst h1
        exact stateMono_refl tp
      | cons x xs => simp [toposortGroupedLoop] at h
    · intro g tp key tp2 r h
      simp [toposortGenerateBaseCollect] at h
    · intro g tp spec tp2 r h
      simp [toposortGenerateCollect] at h
    · intro g tp key slots tp2 r h
      cases slots with
      | nil =>
        simp only [toposortDecorateLoop, Option.some.injEq, Prod.mk.injEq] at h
        obtain ⟨h1, -⟩ := h
        subst h1
        exact stateMono_refl tp
      | cons x xs => simp [toposortDecorateLoop] at h
    · intro g tp current tp2 r h
      simp [toposortGenerateGraphNode] at h
    · intro g tp inputs tp2 r h
      cases inputs with
      | nil =>
        simp only [toposortBaseLoop, Option.some.injEq, Prod.mk.injEq] at h
        obtain ⟨h1, -⟩ := h
        subst h1
        exact stateMono_refl tp
      | cons x xs => simp [toposortBaseLoop] at h
    · intro g tp inputs acc tp2 r h
      cases inputs with
      | nil =>
        simp only [toposortCollectLoop, Option.some.injEq, Prod.mk.injEq] at h
        obtain ⟨h1, -⟩ := h
        subst h1
        exact stateMono_refl tp
      | cons x xs => simp [toposortCollectLoop] at h
  | succ fuel ih =>
    obtain ⟨ihID, ihSingle, ihGrouped, ihGLoop, ihBase, ihCollect, ihDLoop,
      ihNode, ihBLoop, ihCLoop⟩ := ih
    refine ⟨?_, ?_, ?_, ?_, ?_, ?_, ?_, ?_, ?_, ?_⟩
    · -- toposortGenerateGraphNodeID
      intro g tp id tp2 r h
      simp only [toposortGenerateGraphNodeID] at h
      split at h
      · simp only [Option.some.injEq, Prod.mk.injEq] at h
        obtain ⟨h1, -⟩ := h
        subst h1
        exact stateMono_refl tp
      · split at h
        · simp at h
        · next node heq2 =>
          rw [Option.map_eq_some'] at h
          obtain ⟨⟨tp1, r1⟩, hcall, hfin⟩ := h
          have hmono1 := ihNode g { tp with pending := pinsert tp.pending id }
            node tp1 r1 hcall
          cases r1 with
          | error e =>
            simp only [finishGenerateID] at hfin
            rw [Prod.mk.injEq] at hfin
            obtain ⟨h1, -⟩ := hfin
            subst h1
            exact ⟨pend_perase_mono tp tp1 id hmono1, hmono1.2.1, hmono1.2.2⟩
          | ok params =>
            simp only [finishGenerateID] at hfin
            rw [Prod.mk.injEq] at hfin
            obtain ⟨h1, -⟩ := hfin
            subst h1
            refine ⟨pend_perase_mono tp tp1 id hmono1, ?_, hmono1.2.2⟩
            intro j hj
            exact alookup_aset_isSome tp1.outputs id j params (hmono1.2.1 j hj)
    · -- toposortGenerateSingle
      intro g tp key tp2 r h
      simp only [toposortGenerateSingle] at h
      split at h
      · simp only [Option.some.injEq, Prod.mk.injEq] at h
        obtain ⟨h1, -⟩ := h
        subst h1
        exact stateMono_refl tp
      · split at h
        · split at h
          · simp at h
          · simp only [Option.some.injEq, Prod.mk.injEq] at h
            obtain ⟨h1, -⟩ := h
            subst h1
            exact stateMono_refl tp
        · simp only [pbind] at h
          split at h
          · simp at h
          · next tp1 e heq =>
            simp only [Option.some.injEq, Prod.mk.injEq] at h
            obtain ⟨h1, -⟩ := h
            subst h1
            exact ihID g tp _ tp1 (Except.error e) heq
          · next tp1 params heq =>
            simp only [Option.some.injEq, Prod.mk.injEq] at h
            obtain ⟨h1, -⟩ := h
            subst h1
            exact ihID g tp _ tp1 (Except.ok params) heq
      · simp only [Option.some.injEq, Prod.mk.injEq] at h
        obtain ⟨h1, -⟩ := h
        subst h1
        exact stateMono_refl tp
    · -- toposortGenerateGrouped
      intro g tp key tp2 r h
      simp only [toposortGenerateGrouped, GraphToposort.alloc] at h
      split at h
      · simp only [Option.some.injEq, Prod.mk.injEq] at h
        obtain ⟨h1, -⟩ := h
        subst h1
        exact stateMono_refl tp
      · simp only [pbind] at h
        have hm0 : StateMono tp { tp with store := tp.store ++ [[RValue.slice []]] } :=
          stateMono_keep tp _ rfl rfl rfl
        split at h
        · simp at h
        · next tp1 e heq =>
          simp only [Option.some.injEq, Prod.mk.injEq] at h
          obtain ⟨h1, -⟩ := h
          subst h1
          exact stateMono_trans hm0 (ihGLoop g _ _ [] tp1 (Except.error e) heq)
        · next tp1 items heq =>
          have hm1 := stateMono_trans hm0 (ihGLoop g _ _ [] tp1 (Except.ok items) heq)
          simp only [Option.some.injEq, Prod.mk.injEq] at h
          obtain ⟨h1, -⟩ := h
          subst h1
          refine stateMono_trans hm1 ⟨fun x hx => hx, fun i hi => hi, ?_⟩
          intro k hk
          exact alookup_aset_isSome tp1.grouped key k (List.length tp.store) hk
    · -- toposortGroupedLoop
      intro g tp slots acc tp2 r h
      cases slots with
      | nil =>
        simp only [toposortGroupedLoop, Option.some.injEq, Prod.mk.injEq] at h
        obtain ⟨h1, -⟩ := h
        subst h1
        exact stateMono_refl tp
      | cons slot rest =>
        simp only [toposortGroupedLoop, pbind] at h
        split at h
        · simp at h
        · next tp1 e heq =>
          simp only [Option.some.injEq, Prod.mk.injEq] at h
          obtain ⟨h1, -⟩ := h
          subst h1
          exact ihID g tp _ tp1 (Except.error e) heq
        · next tp1 params heq =>
          exact stateMono_trans (ihID g tp _ tp1 (Except.ok params) heq)
            (ihGLoop g tp1 rest _ tp2 r h)
    · -- toposortGenerateBaseCollect
      intro g tp key tp2 r h
      simp only [toposortGenerateBaseCollect, pbind] at h
      split at h
      · simp at h
      · next tp1 e heq =>
        simp only [Option.some.injEq, Prod.mk.injEq] at h
        obtain ⟨h1, -⟩ := h
        subst h1
        by_cases hg : key.group
        · simp only [hg, if_true] at heq
          exact ihGrouped g tp key tp1 (Except.error e) heq
        · simp only [hg, if_false] at heq
          exact ihSingle g tp key tp1 (Except.error e) heq
      · next tp1 base heq =>
        have hm1 : StateMono tp tp1 := by
          by_cases hg : key.group
          · simp only [hg, if_true] at heq
            exact ihGrouped g tp key tp1 (Except.ok base) heq
          · simp only [hg, if_false] at heq
            exact ihSingle g tp key tp1 (Except.ok base) heq
        split at h
        · simp only [Option.some.injEq, Prod.mk.injEq] at h
          obtain ⟨h1, -⟩ := h
          subst h1
          exact hm1
        · split at h
          · simp only [Option.some.injEq, Prod.mk.injEq] at h
            obtain ⟨h1, -⟩ := h
            subst h1
            exact hm1
          · split at h
            · simp only [Option.some.injEq, Prod.mk.injEq] at h
              obtain ⟨h1, -⟩ := h
              subst h1
              exact hm1
            · simp only [Option.some.injEq, Prod.mk.injEq] at h
              obtain ⟨h1, -⟩ := h
              subst h1
              exact stateMono_trans hm1 (stateMono_keep tp1 _ rfl rfl rfl)
    · -- toposortGenerateCollect
      intro g tp spec tp2 r h
      simp only [toposortGenerateCollect] at h
      split at h
      · simp at h
      · next tp1 e heq =>
        simp only [Option.some.injEq, Prod.mk.injEq] at h
        obtain ⟨h1, -⟩ := h
        subst h1
        exact ihBase g tp _ tp1 (Except.error e) heq
      · next tp1 base heq =>
        have hm1 := ihBase g tp _ tp1 (Except.ok base) heq
        split at h
        · split at h
          · simp only [Option.some.injEq, Prod.mk.injEq] at h
            obtain ⟨h1, -⟩ := h
            subst h1
            exact hm1
          · simp only [Option.some.injEq, Prod.mk.injEq] at h
            obtain ⟨h1, -⟩ := h
            subst h1
            exact hm1
        · split at h
          · simp only [Option.some.injEq, Prod.mk.injEq] at h
            obtain ⟨h1, -⟩ := h
            subst h1
            exact hm1
          · split at h
            · simp only [Option.some.injEq, Prod.mk.injEq] at h
              obtain ⟨h1, -⟩ := h
              subst h1
              exact hm1
            · simp only [pbind] at h
              split at h
              · simp at h
              · next tp3 e heq2 =>
                simp only [Option.some.injEq, Prod.mk.injEq] at h
                obtain ⟨h1, -⟩ := h
                subst h1
                exact stateMono_trans hm1 (ihDLoop g tp1 _ _ tp3 (Except.error e) heq2)
              · next tp3 u heq2 =>
                have hm3 := stateMono_trans hm1 (ihDLoop g tp1 _ _ tp3 (Except.ok u) heq2)
                simp only [Option.some.injEq, Prod.mk.injEq] at h
                obtain ⟨h1, -⟩ := h
                subst h1
                exact stateMono_trans hm3 (stateMono_keep tp3 _ rfl rfl rfl)
    · -- toposortDecorateLoop
      intro g tp key slots tp2 r h
      cases slots with
      | nil =>
        simp only [toposortDecorateLoop, Option.some.injEq, Prod.mk.injEq] at h
        obtain ⟨h1, -⟩ := h
        subst h1
        exact stateMono_refl tp
      | cons slot rest =>
        simp only [toposortDecorateLoop, pbind] at h
        split at h
        · simp at h
        · next tp1 e heq =>
          simp only [Option.some.injEq, Prod.mk.injEq] at h
          obtain ⟨h1, -⟩ := h
          subst h1
          exact ihID g tp _ tp1 (Except.error e) heq
        · next tp1 params heq =>
          have hm1 := ihID g tp _ tp1 (Except.ok params) heq
          have hm2 : StateMono tp1 { tp1 with
              decorating := aset tp1.decorating key ⟨some params, slot.index⟩ } :=
            stateMono_keep tp1 _ rfl rfl rfl
          exact stateMono_trans (stateMono_trans hm1 hm2)
            (ihDLoop g _ key rest tp2 r h)
    · -- toposortGenerateGraphNode
      intro g tp current tp2 r h
      simp only [toposortGenerateGraphNode, GraphToposort.alloc, pbind] at h
      have hm0 : StateMono tp { tp with
          store := tp.store ++ [List.replicate current.input.length RValue.invalid] } :=
        stateMono_keep tp _ rfl rfl rfl
      split at h
      · simp at h
      · next tp1 e heq =>
        simp only [Option.some.injEq, Prod.mk.injEq] at h
        obtain ⟨h1, -⟩ := h
        subst h1
        exact stateMono_trans hm0 (ihBLoop g _ _ tp1 (Except.error e) heq)
      · next tp1 u heq =>
        have hm1 := stateMono_trans hm0 (ihBLoop g _ _ tp1 (Except.ok u) heq)
        split at h
        · simp at h
        · next tp3 e heq2 =>
          simp only [Option.some.injEq, Prod.mk.injEq] at h
          obtain ⟨h1, -⟩ := h
          subst h1
          exact stateMono_trans hm1 (ihCLoop g tp1 _ [] tp3 (Except.error e) heq2)
        · next tp3 items heq2 =>
          have hm3 := stateMono_trans hm1 (ihCLoop g tp1 _ [] tp3 (Except.ok items) heq2)
          simp only [Option.some.injEq, Prod.mk.injEq] at h
          obtain ⟨h1, -⟩ := h
          subst h1
          exact stateMono_trans hm3 (stateMono_keep tp3 _ rfl rfl rfl)
    · -- toposortBaseLoop
      intro g tp inputs tp2 r h
      cases inputs with
      | nil =>
        simp only [toposortBaseLoop, Option.some.injEq, Prod.mk.injEq] at h
        obtain ⟨h1, -⟩ := h
        subst h1
        exact stateMono_refl tp
      | cons input rest =>
        simp only [toposortBaseLoop, pbind] at h
        split at h
        · simp at h
        · next tp1 e heq =>
          simp only [Option.some.injEq, Prod.mk.injEq] at h
          obtain ⟨h1, -⟩ := h
          subst h1
          exact ihBase g tp _ tp1 (Except.error e) heq
        · next tp1 c heq =>
          exact stateMono_trans (ihBase g tp _ tp1 (Except.ok c) heq)
            (ihBLoop g tp1 rest tp2 r h)
    · -- toposortCollectLoop
      intro g tp inputs acc tp2 r h
      cases inputs with
      | nil =>
        simp only [toposortCollectLoop, Option.some.injEq, Prod.mk.injEq] at h
        obtain ⟨h1, -⟩ := h
        subst h1
        exact stateMono_refl tp
      | cons input rest =>
        simp only [toposortCollectLoop, pbind] at h
        split at h
        · simp at h
        · next tp1 e heq =>
          simp only [Option.some.injEq, Prod.mk.injEq] at h
          obtain ⟨h1, -⟩ := h
          subst h1
          exact ihCollect g tp _ tp1 (Except.error e) heq
        · next tp1 c heq =>
          exact stateMono_trans (ihCollect g tp _ tp1 (Except.ok c) heq)
            (ihCLoop g tp1 rest _ tp2 r h)

/-- A key whose base collect has been materialised in the planner state: a
group key has its grouped buffer memoised; a singleton key has exactly one
provide slot, whose node is not pending and whose outputs are memoised.
`toposortGenerateBaseCollect` cannot fail from such a state. -/
def Materialised (g : Graph) (tp : GraphToposort) (key : GraphNodeKey) : Prop :=
  (key.group = true → (alookup tp.grouped key).isSome) ∧
  (key.group = false → ∃ slot, slotsOf g.provide key = [slot] ∧
    slot.id ∉ tp.pending ∧ (alookup tp.outputs slot.id).isSome)

theorem materialised_mono {g : Graph} {tp tp2 : GraphToposort} {key : GraphNodeKey}
    (hm : StateMono tp tp2) (h : Materialised g tp key) : Materialised g tp2 key := by
  refine ⟨fun hg => hm.2.2 key (h.1 hg), fun hg => ?_⟩
  obtain ⟨slot, hs, hp, ho⟩ := h.2 hg
  exact ⟨slot, hs, fun hx => hp (hm.1 slot.id hx), hm.2.1 slot.id ho⟩

theorem alookup_aerase_self {κ α : Type} [DecidableEq κ] (m : List (κ × α)) (k : κ) :
    alookup (aerase m k) k = none := by
  induction m with
  | nil => simp [aerase, alookup]
  | cons p rest ih =>
    by_cases hk : p.1 = k
    · simp [aerase, hk, ih]
    · simp [aerase, alookup, hk, ih]

theorem alookup_aerase_ne {κ α : Type} [DecidableEq κ] (m : List (κ × α)) (k j : κ)
    (h : j ≠ k) : alookup (aerase m k) j = alookup m j := by
  induction m with
  | nil => simp [aerase]
  | cons p rest ih =>
    by_cases hk : p.1 = k
    · have hj : p.1 ≠ j := by rw [hk]; exact fun e => h e.symm
      have hkj : ¬(k = j) := fun e => h e.symm
      simp [aerase, alookup, hk, hj, hkj, ih]
    · simp only [aerase, hk, if_false, alookup]
      by_cases hj : p.1 = j <;> simp [hj, ih]

theorem alookup_aerase_some {κ α : Type} [DecidableEq κ] (m : List (κ × α)) (k j : κ)
    (c : α) (h : alookup (aerase m k) j = some c) : alookup m j = some c := by
  by_cases hk : j = k
  · subst hk
    rw [alookup_aerase_self] at h
    exact absurd h (by simp)
  · rw [alookup_aerase_ne m k j hk] at h
    exact h

theorem alookup_aset_cases {κ α : Type} [DecidableEq κ] (m : List (κ × α)) (k j : κ)
    (v w : α) (h : alookup (aset m k v) j = some w) :
    (j = k ∧ w = v) ∨ alookup m j = some w := by
  by_cases hk : k = j
  · subst hk
    rw [alookup_aset_self] at h
    rw [Option.some.injEq] at h
    exact Or.inl ⟨rfl, h.symm⟩
  · rw [alookup_aset_ne m k j v hk] at h
    exact Or.inr h

/-- A successful `toposortGenerateGraphNodeID` leaves the node's outputs
memoised. -/
theorem id_ok_outputs (g : Graph) (fuel : Nat) (tp : GraphToposort) (id : Nat)
    (tp2 : GraphToposort) (params : Nat)
    (h : toposortGenerateGraphNodeID g fuel tp id = some (tp2, Except.ok params)) :
    (alookup tp2.outputs id).isSome := by
  cases fuel with
  | zero => simp [toposortGenerateGraphNodeID] at h
  | succ fuel =>
    simp only [toposortGenerateGraphNodeID] at h
    split at h
    · next prms heq =>
      simp only [Option.some.injEq, Prod.mk.injEq] at h
      obtain ⟨h1, -⟩ := h
      subst h1
      simp [heq]
    · split at h
      · simp at h
      · next node heq2 =>
        rw [Option.map_eq_some'] at h
        obtain ⟨⟨tp1, r1⟩, hcall, hfin⟩ := h
        cases r1 with
        | error e =>
          simp only [finishGenerateID] at hfin
          rw [Prod.mk.injEq] at hfin
          exact absurd hfin.2 (by simp)
        | ok p2 =>
          simp only [finishGenerateID] at hfin
          rw [Prod.mk.injEq] at hfin
          obtain ⟨h1, -⟩ := hfin
          subst h1
          simp [alookup_aset_self]

/-- A successful `toposortGenerateGrouped` leaves the group key memoised. -/
theorem grouped_ok_memoises (g : Graph) (fuel : Nat) (tp tp1 : GraphToposort)
    (key : GraphNodeKey) (c : ExecutionCollect)
    (h : toposortGenerateGrouped g fuel tp key = some (tp1, Except.ok c)) :
    (alookup tp1.grouped key).isSome := by
  cases fuel with
  | zero => simp [toposortGenerateGrouped] at h
  | succ fuel =>
    simp only [toposortGenerateGrouped, GraphToposort.alloc] at h
    split at h
    · next result heq =>
      simp only [Option.some.injEq, Prod.mk.injEq] at h
      obtain ⟨h1, -⟩ := h
      subst h1
      simp [heq]
    · simp only [pbind] at h
      split at h
      · simp at h
      · simp at h
      · next tpa items heqa =>
        simp only [Option.some.injEq, Prod.mk.injEq] at h
        obtain ⟨h1, -⟩ := h
        subst h1
        simp [alookup_aset_self]

/-- A successful `toposortGenerateSingle` materialises its singleton key. -/
theorem single_ok_materialises (g : Graph) (fuel : Nat) (tp tp1 : GraphToposort)
    (key : GraphNodeKey) (c : ExecutionCollect)
    (h : toposortGenerateSingle g fuel tp key = some (tp1, Except.ok c))
    (hg : key.group = false) : Materialised g tp1 key := by
  cases fuel with
  | zero => simp [toposortGenerateSingle] at h
  | succ fuel =>
    simp only [toposortGenerateSingle] at h
    split at h
    · simp at h
    · next slot heq =>
      split at h
      · split at h
        · simp at h
        · simp at h
      · next hpend =>
        simp only [pbind] at h
        split at h
        · simp at h
        · simp at h
        · next tpa params heqa =>
          simp only [Option.some.injEq, Prod.mk.injEq] at h
          obtain ⟨h1, -⟩ := h
          subst h1
          have hmono := (toposortMono fuel).1 g tp slot.id tpa (Except.ok params) heqa
          refine ⟨fun hgt => ?_, fun _ => ?_⟩
          · rw [hg] at hgt
            exact absurd hgt (by simp)
          · exact ⟨slot, heq, fun hx => hpend (hmono.1 slot.id hx),
              id_ok_outputs g fuel tp slot.id tpa params heqa⟩
    · simp at h

/-- A successful base collect materialises its key. -/
theorem base_ok_materialises (g : Graph) (fuel : Nat) (tp tp2 : GraphToposort)
    (key : GraphNodeKey) (c : ExecutionCollect)
    (h : toposortGenerateBaseCollect g fuel tp key = some (tp2, Except.ok c)) :
    Materialised g tp2 key := by
  cases fuel with
  | zero => simp [toposortGenerateBaseCollect] at h
  | succ fuel =>
    simp only [toposortGenerateBaseCollect, pbind] at h
    split at h
    · simp at h
    · simp at h
    · next tp1 base heq =>
      have hmat1 : Materialised g tp1 key := by
        by_cases hg : key.group
        · simp only [hg, if_true] at heq
          refine ⟨fun _ => grouped_ok_memoises g fuel tp tp1 key base heq, fun hf => ?_⟩
          rw [hg] at hf
          exact absurd hf (by simp)
        · have hg2 : key.group = false := by revert hg; cases key.group <;> simp
          simp only [hg, if_false] at heq
          exact single_ok_materialises g fuel tp tp1 key base heq hg2
      split at h
      · simp only [Option.some.injEq, Prod.mk.injEq] at h
        obtain ⟨h1, -⟩ := h
        subst h1
        exact hmat1
      · split at h
        · simp only [Option.some.injEq, Prod.mk.injEq] at h
          obtain ⟨h1, -⟩ := h
          subst h1
          exact hmat1
        · split at h
          · simp only [Option.some.injEq, Prod.mk.injEq] at h
            obtain ⟨h1, -⟩ := h
            subst h1
            exact hmat1
          · simp only [Option.some.injEq, Prod.mk.injEq] at h
            obtain ⟨h1, -⟩ := h
            subst h1
            exact materialised_mono (stateMono_keep tp1 _ rfl rfl rfl) hmat1

/-- Memo evaluation of a singleton key: one slot, not pending, outputs
recorded. -/
theorem single_memo_eval (g : Graph) (f : Nat) (tp : GraphToposort)
    (key : GraphNodeKey) (slot : GraphNodeOutputSlot) (params : Nat)
    (hs : slotsOf g.provide key = [slot]) (hp : slot.id ∉ tp.pending)
    (hout : alookup tp.outputs slot.id = some params) :
    toposortGenerateSingle g (f + 1 + 1) tp key =
      some (tp, Except.ok { result := some params, index := slot.index }) := by
  simp [toposortGenerateSingle, hs, hp, pbind,
    toposortGenerateGraphNodeID_memo g f tp slot.id params hout]

/-- Memo evaluation of a group key. -/
theorem grouped_memo_eval (g : Graph) (f : Nat) (tp : GraphToposort)
    (key : GraphNodeKey) (res : Nat) (hres : alookup tp.grouped key = some res) :
    toposortGenerateGrouped g (f + 1) tp key =
      some (tp, Except.ok { result := some res, index := 0 }) := by
  simp [toposortGenerateGrouped, hres]

/-- Stability: from a state in which a key is materialised, the base collect
cannot fail — whenever it terminates it succeeds, with a filled collect. The
error-discarding branch of `toposortGenerateCollect` is therefore dead code
for keys pre-resolved by the first input pass. -/
theorem materialised_base_ok (g : Graph) (fuel : Nat) (tp tp2 : GraphToposort)
    (key : GraphNodeKey) (r : Except RunErr ExecutionCollect)
    (hmat : Materialised g tp key)
    (h : toposortGenerateBaseCollect g fuel tp key = some (tp2, r)) :
    ∃ c, r = Except.ok c ∧ c.result ≠ none := by
  cases fuel with
  | zero => simp [toposortGenerateBaseCollect] at h
  | succ fuel =>
    by_cases hg : key.group
    · obtain ⟨res, hres⟩ := Option.isSome_iff_exists.mp (hmat.1 hg)
      cases fuel with
      | zero =>
        simp [toposortGenerateBaseCollect, hg, toposortGenerateGrouped, pbind] at h
      | succ f =>
        simp only [toposortGenerateBaseCollect, hg, if_true, pbind,
          grouped_memo_eval g f tp key res hres] at h
        repeat' split at h
        all_goals
          simp only [Option.some.injEq, Prod.mk.injEq] at h
          exact ⟨_, h.2.symm, by simp⟩
    · have hg2 : key.group = false := by revert hg; cases key.group <;> simp
      obtain ⟨slot, hs, hp, ho⟩ := hmat.2 hg2
      obtain ⟨params, hout⟩ := Option.isSome_iff_exists.mp ho
      cases fuel with
      | zero =>
        simp [toposortGenerateBaseCollect, hg, toposortGenerateSingle, pbind] at h
      | succ f =>
        cases f with
        | zero =>
          simp [toposortGenerateBaseCollect, hg, toposortGenerateSingle, hs, hp,
            toposortGenerateGraphNodeID, pbind] at h
        | succ f2 =>
          simp only [toposortGenerateBaseCollect, hg2, Bool.false_eq_true, if_false, pbind,
            single_memo_eval g f2 tp key slot params hs hp hout] at h
          repeat' split at h
          all_goals
            simp only [Option.some.injEq, Prod.mk.injEq] at h
            exact ⟨_, h.2.symm, by simp⟩

/-- After a non-empty decorator loop succeeds, the decorating entry of the
key is present (each iteration rewrites it after planning its decorator). -/
theorem dloop_sets_decorating : ∀ (slots : List GraphNodeOutputSlot) (g : Graph)
    (fuel : Nat) (tp tp2 : GraphToposort) (key : GraphNodeKey),
    slots ≠ [] →
    toposortDecorateLoop g fuel tp key slots = some (tp2, Except.ok ()) →
    (alookup tp2.decorating key).isSome := by
  intro slots
  induction slots with
  | nil =>
    intro g fuel tp tp2 key hne h
    exact absurd rfl hne
  | cons slot rest ih =>
    intro g fuel tp tp2 key hne h
    cases fuel with
    | zero => simp [toposortDecorateLoop] at h
    | succ f =>
      simp only [toposortDecorateLoop, pbind] at h
      split at h
      · simp at h
      · simp at h
      · next tp1 params heq =>
        by_cases hrest : rest = []
        · subst hrest
          simp only [toposortDecorateLoop, Option.some.injEq, Prod.mk.injEq] at h
          obtain ⟨h1, -⟩ := h
          subst h1
          simp [alookup_aset_self]
        · exact ih g f _ tp2 key hrest h

/-- The decorating and decorated tables hold only filled collects. -/
def DecorFilled (tp : GraphToposort) : Prop :=
  (∀ k c, alookup tp.decorating k = some c → c.result ≠ none) ∧
  (∀ k c, alookup tp.decorated k = some c → c.result ≠ none)

/-- Plan invariant: every collect descriptor recorded in the plan so far, and
every collect cached in the decoration tables, is filled. -/
def PlanOK (tp : GraphToposort) : Prop :=
  planFilled tp.result = true ∧ DecorFilled tp

theorem planFilled_append (a b : List ExecutionNode) :
    planFilled (a ++ b) = (planFilled a && planFilled b) := by
  simp [planFilled, List.all_append]

theorem planOK_keep (tp tp2 : GraphToposort) (hr : tp2.result = tp.result)
    (hd : tp2.decorating = tp.decorating) (hd2 : tp2.decorated = tp.decorated)
    (h : PlanOK tp) : PlanOK tp2 := by
  refine ⟨?_, ?_, ?_⟩
  · rw [hr]
    exact h.1
  · intro k c hc
    rw [hd] at hc
    exact h.2.1 k c hc
  · intro k c hc
    rw [hd2] at hc
    exact h.2.2 k c hc

theorem planOK_append (tp tp2 : GraphToposort) (n : ExecutionNode)
    (hr : tp2.result = tp.result ++ [n]) (hn : planFilled [n] = true)
    (hd : tp2.decorating = tp.decorating) (hd2 : tp2.decorated = tp.decorated)
    (h : PlanOK tp) : PlanOK tp2 := by
  refine ⟨?_, ?_, ?_⟩
  · rw [hr, planFilled_append, h.1, hn]
    rfl
  · intro k c hc
    rw [hd] at hc
    exact h.2.1 k c hc
  · intro k c hc
    rw [hd2] at hc
    exact h.2.2 k c hc

theorem filled_all (items : List ExecutionCollect)
    (h : ∀ c ∈ items, c.result ≠ none) :
    (items.all fun c => c.result.isSome) = true := by
  rw [List.all_eq_true]
  intro c hc
  have hcc := h c hc
  cases hx : c.result with
  | none => exact absurd hx hcc
  | some v => simp

set_option maxHeartbeats 2000000 in
/-- Filled-plan preservation: starting from a state whose plan and decoration
tables are filled, every planner call keeps them filled, every successful
collect payload is filled, and the first input pass leaves every input key of
the node materialised — so the error-discarding branch of
`toposortGenerateCollect` never fires in the second pass. -/
theorem planOK_pres : ∀ fuel : Nat,
    (∀ (g : Graph) (tp : GraphToposort) (id : Nat) (tp2 : GraphToposort)
      (r : Except RunErr Nat), PlanOK tp →
      toposortGenerateGraphNodeID g fuel tp id = some (tp2, r) → PlanOK tp2) ∧
    (∀ (g : Graph) (tp : GraphToposort) (key : GraphNodeKey) (tp2 : GraphToposort)
      (r : Except RunErr ExecutionCollect), PlanOK tp →
      toposortGenerateSingle g fuel tp key = some (tp2, r) →
      PlanOK tp2 ∧ ∀ c, r = Except.ok c → c.result ≠ none) ∧
    (∀ (g : Graph) (tp : GraphToposort) (key : GraphNodeKey) (tp2 : GraphToposort)
      (r : Except RunErr ExecutionCollect), PlanOK tp →
      toposortGenerateGrouped g fuel tp key = some (tp2, r) →
      PlanOK tp2 ∧ ∀ c, r = Except.ok c → c.result ≠ none) ∧
    (∀ (g : Graph) (tp : GraphToposort) (slots : List GraphNodeOutputSlot)
      (acc : List ExecutionCollect) (tp2 : GraphToposort)
      (r : Except RunErr (List ExecutionCollect)), PlanOK tp →
      (∀ c ∈ acc, c.result ≠ none) →
      toposortGroupedLoop g fuel tp slots acc = some (tp2, r) →
      PlanOK tp2 ∧ ∀ cs, r = Except.ok cs → ∀ c ∈ cs, c.result ≠ none) ∧
    (∀ (g : Graph) (tp : GraphToposort) (key : GraphNodeKey) (tp2 : GraphToposort)
      (r : Except RunErr ExecutionCollect), PlanOK tp →
      toposortGenerateBaseCollect g fuel tp key = some (tp2, r) →
      PlanOK tp2 ∧ ∀ c, r = Except.ok c → c.result ≠ none) ∧
    (∀ (g : Graph) (tp : GraphToposort) (spec : Spec) (tp2 : GraphToposort)
      (r : Except RunErr ExecutionCollect), PlanOK tp →
      Materialised g tp (extractGraphKey spec) →
      toposortGenerateCollect g fuel tp spec = some (tp2, r) →
      PlanOK tp2 ∧ ∀ c, r = Except.ok c → c.result ≠ none) ∧
    (∀ (g : Graph) (tp : GraphToposort) (key : GraphNodeKey)
      (slots : List GraphNodeOutputSlot) (tp2 : GraphToposort)
      (r : Except RunErr Unit), PlanOK tp →
      toposortDecorateLoop g fuel tp key slots = some (tp2, r) → PlanOK tp2) ∧
    (∀ (g : Graph) (tp : GraphToposort) (current : GraphNode) (tp2 : GraphToposort)
      (r : Except RunErr Nat), PlanOK tp →
      toposortGenerateGraphNode g fuel tp current = some (tp2, r) → PlanOK tp2) ∧
    (∀ (g : Graph) (tp : GraphToposort) (inputs : List Spec) (tp2 : GraphToposort)
      (r : Except RunErr Unit), PlanOK tp →
      toposortBaseLoop g fuel tp inputs = some (tp2, r) →
      PlanOK tp2 ∧ (r = Except.ok () →
        ∀ input ∈ inputs, Materialised g tp2 (extractGraphKey input))) ∧
    (∀ (g : Graph) (tp : GraphToposort) (inputs : List Spec)
      (acc : List ExecutionCollect) (tp2 : GraphToposort)
      (r : Except RunErr (List ExecutionCollect)), PlanOK tp →
      (∀ input ∈ inputs, Materialised g tp (extractGraphKey input)) →
      (∀ c ∈ acc, c.result ≠ none) →
      toposortCollectLoop g fuel tp inputs acc = some (tp2, r) →
      PlanOK tp2 ∧ ∀ cs, r = Except.ok cs → ∀ c ∈ cs, c.result ≠ none) := by
  intro fuel
  induction fuel with
  | zero =>
    refine ⟨?_, ?_, ?_, ?_, ?_, ?_, ?_, ?_, ?_, ?_⟩
    · intro g tp id tp2 r hok h
      simp [toposortGenerateGraphNodeID] at h
    · intro g tp key tp2 r hok h
      simp [toposortGenerateSingle] at h
    · intro g tp key tp2 r hok h
      simp [toposortGenerateGrouped] at h
    · intro g tp slots acc tp2 r hok hacc h
      cases slots with
      | nil =>
        simp only [toposortGroupedLoop, Option.some.injEq, Prod.mk.injEq] at h
        obtain ⟨h1, h2⟩ := h
        subst h1
        subst h2
        refine ⟨hok, ?_⟩
        intro cs hcs
        simp only [Except.ok.injEq] at hcs
        subst hcs
        exact hacc
      | cons x xs => simp [toposortGroupedLoop] at h
    · intro g tp key tp2 r hok h
      simp [toposortGenerateBaseCollect] at h
    · intro g tp spec tp2 r hok hmat h
      simp [toposortGenerateCollect] at h
    · intro g tp key slots tp2 r hok h
      cases slots with
      | nil =>
        simp only [toposortDecorateLoop, Option.some.injEq, Prod.mk.injEq] at h
        obtain ⟨h1, -⟩ := h
        subst h1
        exact hok
      | cons x xs => simp [toposortDecorateLoop] at h
    · intro g tp current tp2 r hok h
      simp [toposortGenerateGraphNode] at h
    · intro g tp inputs tp2 r hok h
      cases inputs with
      | nil =>
        simp only [toposortBaseLoop, Option.some.injEq, Prod.mk.injEq] at h
        obtain ⟨h1, -⟩ := h
        subst h1
        refine ⟨hok, ?_⟩
        intro hr input hin
        simp at hin
      | cons x xs => simp [toposortBaseLoop] at h
    · intro g tp inputs acc tp2 r hok hmats hacc h
      cases inputs with
      | nil =>
        simp only [toposortCollectLoop, Option.some.injEq, Prod.mk.injEq] at h
        obtain ⟨h1, h2⟩ := h
        subst h1
        subst h2
        refine ⟨hok, ?_⟩
        intro cs hcs
        simp only [Except.ok.injEq] at hcs
        subst hcs
        exact hacc
      | cons x xs => simp [toposortCollectLoop] at h
  | succ fuel ih =>
    obtain ⟨pID, pSingle, pGrouped, pGLoop, pBase, pCollect, pDLoop,
      pNode, pBLoop, pCLoop⟩ := ih
    refine ⟨?_, ?_, ?_, ?_, ?_, ?_, ?_, ?_, ?_, ?_⟩
    · -- toposortGenerateGraphNodeID
      intro g tp id tp2 r hok h
      simp only [toposortGenerateGraphNodeID] at h
      split at h
      · simp only [Option.some.injEq, Prod.mk.injEq] at h
        obtain ⟨h1, -⟩ := h
        subst h1
        exact hok
      · split at h
        · simp at h
        · next node heq2 =>
          rw [Option.map_eq_some'] at h
          obtain ⟨⟨tp1, r1⟩, hcall, hfin⟩ := h
          have hok1 := pNode g { tp with pending := pinsert tp.pending id } node tp1 r1
            (planOK_keep tp _ rfl rfl rfl hok) hcall
          cases r1 with
          | error e =>
            simp only [finishGenerateID] at hfin
            rw [Prod.mk.injEq] at hfin
            obtain ⟨h1, -⟩ := hfin
            subst h1
            exact planOK_keep tp1 _ rfl rfl rfl hok1
          | ok params =>
            simp only [finishGenerateID] at hfin
            rw [Prod.mk.injEq] at hfin
            obtain ⟨h1, -⟩ := hfin
            subst h1
            exact planOK_keep tp1 _ rfl rfl rfl hok1
    · -- toposortGenerateSingle
      intro g tp key tp2 r hok h
      simp only [toposortGenerateSingle] at h
      split at h
      · simp only [Option.some.injEq, Prod.mk.injEq] at h
        obtain ⟨h1, h2⟩ := h
        subst h1
        subst h2
        refine ⟨hok, ?_⟩
        intro c hc
        simp at hc
      · next slot heq =>
        split at h
        · split at h
          · simp at h
          · simp only [Option.some.injEq, Prod.mk.injEq] at h
            obtain ⟨h1, h2⟩ := h
            subst h1
            subst h2
            refine ⟨hok, ?_⟩
            intro c hc
            simp at hc
        · simp only [pbind] at h
          split at h
          · simp at h
          · next tp1 e heq2 =>
            simp only [Option.some.injEq, Prod.mk.injEq] at h
            obtain ⟨h1, h2⟩ := h
            subst h1
            subst h2
            refine ⟨pID g tp slot.id tp1 (Except.error e) hok heq2, ?_⟩
            intro c hc
            simp at hc
          · next tp1 params heq2 =>
            simp only [Option.some.injEq, Prod.mk.injEq] at h
            obtain ⟨h1, h2⟩ := h
            subst h1
            subst h2
            refine ⟨pID g tp slot.id tp1 (Except.ok params) hok heq2, ?_⟩
            intro c hc
            simp only [Except.ok.injEq] at hc
            subst hc
            simp
      · simp only [Option.some.injEq, Prod.mk.injEq] at h
        obtain ⟨h1, h2⟩ := h
        subst h1
        subst h2
        refine ⟨hok, ?_⟩
        intro c hc
        simp at hc
    · -- toposortGenerateGrouped
      intro g tp key tp2 r hok h
      simp only [toposortGenerateGrouped, GraphToposort.alloc] at h
      split at h
      · next result heq =>
        simp only [Option.some.injEq, Prod.mk.injEq] at h
        obtain ⟨h1, h2⟩ := h
        subst h1
        subst h2
        refine ⟨hok, ?_⟩
        intro c hc
        simp only [Except.ok.injEq] at hc
        subst hc
        simp
      · simp only [pbind] at h
        have hok0 : PlanOK { tp with store := tp.store ++ [[RValue.slice []]] } :=
          planOK_keep tp _ rfl rfl rfl hok
        split at h
        · simp at h
        · next tp1 e heq =>
          simp only [Option.some.injEq, Prod.mk.injEq] at h
          obtain ⟨h1, h2⟩ := h
          subst h1
          subst h2
          refine ⟨(pGLoop g _ _ [] tp1 (Except.error e) hok0 (by simp) heq).1, ?_⟩
          intro c hc
          simp at hc
        · next tp1 items heq =>
          have hres := pGLoop g _ _ [] tp1 (Except.ok items) hok0 (by simp) heq
          have hitems := hres.2 items rfl
          simp only [Option.some.injEq, Prod.mk.injEq] at h
          obtain ⟨h1, h2⟩ := h
          subst h1
          subst h2
          constructor
          · refine planOK_append tp1 _ (ExecutionNode.collectGroup items
              (List.length tp.store)) rfl ?_ rfl rfl hres.1
            simp only [planFilled, List.all_cons, List.all_nil, Bool.and_true]
            exact filled_all items hitems
          · intro c hc
            simp only [Except.ok.injEq] at hc
            subst hc
            simp
    · -- toposortGroupedLoop
      intro g tp slots acc tp2 r hok hacc h
      cases slots with
      | nil =>
        simp only [toposortGroupedLoop, Option.some.injEq, Prod.mk.injEq] at h
        obtain ⟨h1, h2⟩ := h
        subst h1
        subst h2
        refine ⟨hok, ?_⟩
        intro cs hcs
        simp only [Except.ok.injEq] at hcs
        subst hcs
        exact hacc
      | cons slot rest =>
        simp only [toposortGroupedLoop, pbind] at h
        split at h
        · simp at h
        · next tp1 e heq =>
          simp only [Option.some.injEq, Prod.mk.injEq] at h
          obtain ⟨h1, h2⟩ := h
          subst h1
          subst h2
          refine ⟨pID g tp slot.id tp1 (Except.error e) hok heq, ?_⟩
          intro cs hcs
          simp at hcs
        · next tp1 params heq =>
          have hok1 := pID g tp slot.id tp1 (Except.ok params) hok heq
          refine pGLoop g tp1 rest _ tp2 r hok1 ?_ h
          intro c hc
          rcases List.mem_append.mp hc with hc2 | hc2
          · exact hacc c hc2
          · rw [List.mem_singleton] at hc2
            subst hc2
            simp
    · -- toposortGenerateBaseCollect
      intro g tp key tp2 r hok h
      simp only [toposortGenerateBaseCollect, pbind] at h
      split at h
      · simp at h
      · next tp1 e heq =>
        have hok1 : PlanOK tp1 := by
          by_cases hg : key.group
          · simp only [hg, if_true] at heq
            exact (pGrouped g tp key tp1 (Except.error e) hok heq).1
          · simp only [hg, if_false] at heq
            exact (pSingle g tp key tp1 (Except.error e) hok heq).1
        simp only [Option.some.injEq, Prod.mk.injEq] at h
        obtain ⟨h1, h2⟩ := h
        subst h1
        subst h2
        refine ⟨hok1, ?_⟩
        intro c hc
        simp at hc
      · next tp1 base heq =>
        have hok1 : PlanOK tp1 ∧ base.result ≠ none := by
          by_cases hg : key.group
          · simp only [hg, if_true] at heq
            have := pGrouped g tp key tp1 (Except.ok base) hok heq
            exact ⟨this.1, this.2 base rfl⟩
          · simp only [hg, if_false] at heq
            have := pSingle g tp key tp1 (Except.ok base) hok heq
            exact ⟨this.1, this.2 base rfl⟩
        split at h
        · simp only [Option.some.injEq, Prod.mk.injEq] at h
          obtain ⟨h1, h2⟩ := h
          subst h1
          subst h2
          refine ⟨hok1.1, ?_⟩
          intro c hc
          simp only [Except.ok.injEq] at hc
          subst hc
          exact hok1.2
        · split at h
          · simp only [Option.some.injEq, Prod.mk.injEq] at h
            obtain ⟨h1, h2⟩ := h
            subst h1
            subst h2
            refine ⟨hok1.1, ?_⟩
            intro c hc
            simp only [Except.ok.injEq] at hc
            subst hc
            exact hok1.2
          · split at h
            · simp only [Option.some.injEq, Prod.mk.injEq] at h
              obtain ⟨h1, h2⟩ := h
              subst h1
              subst h2
              refine ⟨hok1.1, ?_⟩
              intro c hc
              simp only [Except.ok.injEq] at hc
              subst hc
              exact hok1.2
            · simp only [Option.some.injEq, Prod.mk.injEq] at h
              obtain ⟨h1, h2⟩ := h
              subst h1
              subst h2
              constructor
              · refine ⟨hok1.1.1, ?_, hok1.1.2.2⟩
                intro k c hc
                rcases alookup_aset_cases tp1.decorating key k base c hc with ⟨-, hcv⟩ | hcv
                · subst hcv
                  exact hok1.2
                · exact hok1.1.2.1 k c hcv
              · intro c hc
                simp only [Except.ok.injEq] at hc
                subst hc
                exact hok1.2
    · -- toposortGenerateCollect
      intro g tp spec tp2 r hok hmat h
      simp only [toposortGenerateCollect] at h
      split at h
      · simp at h
      · next tp1 e heq =>
        obtain ⟨c0, hc0, -⟩ := materialised_base_ok g fuel tp tp1
          (extractGraphKey spec) (Except.error e) hmat heq
        simp at hc0
      · next tp1 base heq =>
        have hres := pBase g tp (extractGraphKey spec) tp1 (Except.ok base) hok heq
        have hok1 := hres.1
        have hbase := hres.2 base rfl
        split at h
        · split at h
          · next collect heq2 =>
            simp only [Option.some.injEq, Prod.mk.injEq] at h
            obtain ⟨h1, h2⟩ := h
            subst h1
            subst h2
            refine ⟨hok1, ?_⟩
            intro c hc
            simp only [Except.ok.injEq] at hc
            exact hc ▸ hok1.2.1 (extractGraphKey spec) collect heq2
          · simp only [Option.some.injEq, Prod.mk.injEq] at h
            obtain ⟨h1, h2⟩ := h
            subst h1
            subst h2
            refine ⟨hok1, ?_⟩
            intro c hc
            simp at hc
        · split at h
          · simp only [Option.some.injEq, Prod.mk.injEq] at h
            obtain ⟨h1, h2⟩ := h
            subst h1
            subst h2
            refine ⟨hok1, ?_⟩
            intro c hc
            simp only [Except.ok.injEq] at hc
            subst hc
            exact hbase
          · split at h
            · next decorated heq2 =>
              simp only [Option.some.injEq, Prod.mk.injEq] at h
              obtain ⟨h1, h2⟩ := h
              subst h1
              subst h2
              refine ⟨hok1, ?_⟩
              intro c hc
              simp only [Except.ok.injEq] at hc
              exact hc ▸ hok1.2.2 (extractGraphKey spec) decorated heq2
            · simp only [pbind] at h
              split at h
              · simp at h
              · next tp3 e heq2 =>
                simp only [Option.some.injEq, Prod.mk.injEq] at h
                obtain ⟨h1, h2⟩ := h
                subst h1
                subst h2
                refine ⟨pDLoop g tp1 (extractGraphKey spec) _ tp3
                  (Except.error e) hok1 heq2, ?_⟩
                intro c hc
                simp at hc
              · next tp3 u heq2 =>
                cases u
                have hok3 := pDLoop g tp1 (extractGraphKey spec) _ tp3
                  (Except.ok ()) hok1 heq2
                have hpres := dloop_sets_decorating _ g fuel tp1 tp3
                  (extractGraphKey spec) (by simp) heq2
                obtain ⟨resC, hresC⟩ := Option.isSome_iff_exists.mp hpres
                have hresFill := hok3.2.1 (extractGraphKey spec) resC hresC
                simp only [hresC, Option.getD_some] at h
                simp only [Option.some.injEq, Prod.mk.injEq] at h
                obtain ⟨h1, h2⟩ := h
                subst h1
                subst h2
                constructor
                · refine ⟨hok3.1, ?_, ?_⟩
                  · intro k c hc
                    exact hok3.2.1 k c (alookup_aerase_some tp3.decorating
                      (extractGraphKey spec) k c hc)
                  · intro k c hc
                    rcases alookup_aset_cases tp3.decorated (extractGraphKey spec)
                      k resC c hc with ⟨-, hcv⟩ | hcv
                    · subst hcv
                      exact hresFill
                    · exact hok3.2.2 k c hcv
                · intro c hc
                  simp only [Except.ok.injEq] at hc
                  subst hc
                  exact hresFill
    · -- toposortDecorateLoop
      intro g tp key slots tp2 r hok h
      cases slots with
      | nil =>
        simp only [toposortDecorateLoop, Option.some.injEq, Prod.mk.injEq] at h
        obtain ⟨h1, -⟩ := h
        subst h1
        exact hok
      | cons slot rest =>
        simp only [toposortDecorateLoop, pbind] at h
        split at h
        · simp at h
        · next tp1 e heq =>
          simp only [Option.some.injEq, Prod.mk.injEq] at h
          obtain ⟨h1, -⟩ := h
          subst h1
          exact pID g tp slot.id tp1 (Except.error e) hok heq
        · next tp1 params heq =>
          have hok1 := pID g tp slot.id tp1 (Except.ok params) hok heq
          refine pDLoop g _ key rest tp2 r ?_ h
          refine ⟨hok1.1, ?_, hok1.2.2⟩
          intro k c hc
          rcases alookup_aset_cases tp1.decorating key k
            { result := some params, index := slot.index } c hc with ⟨-, hcv⟩ | hcv
          · subst hcv
            simp
          · exact hok1.2.1 k c hcv
    · -- toposortGenerateGraphNode
      intro g tp current tp2 r hok h
      simp only [toposortGenerateGraphNode, GraphToposort.alloc, pbind] at h
      have hok0 : PlanOK { tp with
          store := tp.store ++ [List.replicate current.input.length RValue.invalid] } :=
        planOK_keep tp _ rfl rfl rfl hok
      split at h
      · simp at h
      · next tp1 e heq =>
        simp only [Option.some.injEq, Prod.mk.injEq] at h
        obtain ⟨h1, -⟩ := h
        subst h1
        exact (pBLoop g _ _ tp1 (Except.error e) hok0 heq).1
      · next tp1 u heq =>
        cases u
        have hbl := pBLoop g _ _ tp1 (Except.ok ()) hok0 heq
        have hmats := hbl.2 rfl
        split at h
        · simp at h
        · next tp3 e heq2 =>
          simp only [Option.some.injEq, Prod.mk.injEq] at h
          obtain ⟨h1, -⟩ := h
          subst h1
          exact (pCLoop g tp1 _ [] tp3 (Except.error e) hbl.1 hmats (by simp) heq2).1
        · next tp3 items heq2 =>
          have hcl := pCLoop g tp1 _ [] tp3 (Except.ok items) hbl.1 hmats (by simp) heq2
          have hitems := hcl.2 items rfl
          simp only [Option.some.injEq, Prod.mk.injEq] at h
          obtain ⟨h1, -⟩ := h
          subst h1
          have hok4 : PlanOK { tp3 with result := tp3.result ++
              [ExecutionNode.collectParam items (List.length tp.store)] } := by
            refine planOK_append tp3 _ _ rfl ?_ rfl rfl hcl.1
            simp only [planFilled, List.all_cons, List.all_nil, Bool.and_true]
            exact filled_all items hitems
          refine planOK_append { tp3 with result := tp3.result ++
              [ExecutionNode.collectParam items (List.length tp.store)] } _
            (ExecutionNode.user (List.length tp.store)
              (List.length tp3.store) current.value) rfl ?_ rfl rfl hok4
          simp [planFilled]
    · -- toposortBaseLoop
      intro g tp inputs tp2 r hok h
      cases inputs with
      | nil =>
        simp only [toposortBaseLoop, Option.some.injEq, Prod.mk.injEq] at h
        obtain ⟨h1, -⟩ := h
        subst h1
        refine ⟨hok, ?_⟩
        intro hr input hin
        simp at hin
      | cons input rest =>
        simp only [toposortBaseLoop, pbind] at h
        split at h
        · simp at h
        · next tp1 e heq =>
          simp only [Option.some.injEq, Prod.mk.injEq] at h
          obtain ⟨h1, h2⟩ := h
          subst h1
          subst h2
          refine ⟨(pBase g tp _ tp1 (Except.error e) hok heq).1, ?_⟩
          intro hr
          simp at hr
        · next tp1 c heq =>
          have hok1 := (pBase g tp _ tp1 (Except.ok c) hok heq).1
          have hmat1 := base_ok_materialises g fuel tp tp1 (extractGraphKey input) c heq
          have hrest := pBLoop g tp1 rest tp2 r hok1 h
          have hmono := (toposortMono fuel).2.2.2.2.2.2.2.2.1 g tp1 rest tp2 r h
          refine ⟨hrest.1, ?_⟩
          intro hr inp hin
          rcases List.mem_cons.mp hin with hin2 | hin2
          · subst hin2
            exact materialised_mono hmono hmat1
          · exact hrest.2 hr inp hin2
    · -- toposortCollectLoop
      intro g tp inputs acc tp2 r hok hmats hacc h
      cases inputs with
      | nil =>
        simp only [toposortCollectLoop, Option.some.injEq, Prod.mk.injEq] at h
        obtain ⟨h1, h2⟩ := h
        subst h1
        subst h2
        refine ⟨hok, ?_⟩
        intro cs hcs
        simp only [Except.ok.injEq] at hcs
        subst hcs
        exact hacc
      | cons input rest =>
        simp only [toposortCollectLoop, pbind] at h
        split at h
        · simp at h
        · next tp1 e heq =>
          simp only [Option.some.injEq, Prod.mk.injEq] at h
          obtain ⟨h1, h2⟩ := h
          subst h1
          subst h2
          refine ⟨(pCollect g tp input tp1 (Except.error e) hok
            (hmats input (List.mem_cons_self input rest)) heq).1, ?_⟩
          intro cs hcs
          simp at hcs
        · next tp1 c heq =>
          have hcres := pCollect g tp input tp1 (Except.ok c) hok
            (hmats input (List.mem_cons_self input rest)) heq
          have hmono := (toposortMono fuel).2.2.2.2.2.1 g tp input tp1
            (Except.ok c) heq
          refine pCLoop g tp1 rest _ tp2 r hcres.1 ?_ ?_ h
          · intro inp hin
            exact materialised_mono hmono (hmats inp (List.mem_cons_of_mem input hin))
          · intro c2 hc2
            rcases List.mem_append.mp hc2 with hc3 | hc3
            · exact hacc c2 hc3
            · rw [List.mem_singleton] at hc3
              rw [hc3]
              exact hcres.2 c rfl

/-- The root invoke loop preserves the filled-plan invariant. -/
theorem planOK_invokes : ∀ (invokes : List GraphNode) (g : Graph) (fuel : Nat)
    (tp tp2 : GraphToposort) (r : Except RunErr Unit),
    PlanOK tp → toposortInvokesLoop g fuel tp invokes = some (tp2, r) →
    PlanOK tp2 := by
  intro invokes
  induction invokes with
  | nil =>
    intro g fuel tp tp2 r hok h
    simp only [toposortInvokesLoop, Option.some.injEq, Prod.mk.injEq] at h
    obtain ⟨h1, -⟩ := h
    subst h1
    exact hok
  | cons invoke rest ih =>
    intro g fuel tp tp2 r hok h
    simp only [toposortInvokesLoop, pbind] at h
    split at h
    · simp at h
    · next tp1 e heq =>
      simp only [Option.some.injEq, Prod.mk.injEq] at h
      obtain ⟨h1, -⟩ := h
      subst h1
      exact (planOK_pres fuel).2.2.2.2.2.2.2.1 g tp invoke tp1 (Except.error e) hok heq
    · next tp1 rid heq =>
      exact ih g fuel tp1 tp2 r
        ((planOK_pres fuel).2.2.2.2.2.2.2.1 g tp invoke tp1 (Except.ok rid) hok heq) h

/-- Every successful toposort yields a plan in which every collect descriptor
is filled: the discarded base-collect error never leaves a zero collect in a
returned plan. -/
theorem toposort_planFilled (g : Graph) (fuel : Nat) (invokes : List GraphNode)
    (plan : List ExecutionNode) (store : Store)
    (h : Graph.toposort g fuel invokes = some (Except.ok (plan, store))) :
    planFilled plan = true := by
  have hok0 : PlanOK newGraphToposort := by
    refine ⟨rfl, ?_, ?_⟩
    · intro k c hc
      simp [newGraphToposort, alookup] at hc
    · intro k c hc
      simp [newGraphToposort, alookup] at hc
  unfold Graph.toposort at h
  split at h
  · simp at h
  · simp at h
  · next tp u heq =>
    simp only [Option.some.injEq, Except.ok.injEq, Prod.mk.injEq] at h
    exact h.1 ▸ (planOK_invokes invokes g fuel newGraphToposort tp
      (Except.ok u) hok0 heq).1

/-- The planner state after `toposortGenerateGraphNode` fails on the
missing-dependency root. -/
def wErrTP : GraphToposort := { newGraphToposort with store := [[RValue.invalid]] }

/-- C9: planning errors abort planning immediately. A planning error surfaced
by `toposort` is returned to `Run` unchanged and no step is executed (the run
returns the error with an empty event log); an error while planning one
invoke node aborts the invoke loop with that error, skipping the remaining
nodes; a singleton resolution error (missing, ambiguous or cyclic) is
propagated unchanged by the base collect; and no error raised inside collect
resolution is discarded in a way that leaves an unfilled collect descriptor —
every plan a successful `toposort` returns has every collect descriptor of
every step filled, so the error-discarding branch of
`toposortGenerateCollect` never corrupts a returned plan. -/
theorem planning_errors_abort :
    (∀ (g : Graph) (fuel1 fuel2 : Nat) (invokes : List GraphNode) (e : RunErr),
      Graph.toposort g fuel1 invokes = some (Except.error e) →
      coreRun g invokes fuel1 fuel2 = some (Except.error e, [])) ∧
    (∀ (g : Graph) (fuel : Nat) (tp : GraphToposort) (invoke : GraphNode)
      (rest : List GraphNode) (tp2 : GraphToposort) (e : RunErr),
      toposortGenerateGraphNode g fuel tp invoke = some (tp2, Except.error e) →
      toposortInvokesLoop g fuel tp (invoke :: rest) = some (tp2, Except.error e)) ∧
    (∀ (g : Graph) (fuel : Nat) (tp : GraphToposort) (key : GraphNodeKey)
      (tp1 : GraphToposort) (e : RunErr), key.group = false →
      toposortGenerateSingle g fuel tp key = some (tp1, Except.error e) →
      toposortGenerateBaseCollect g (fuel + 1) tp key = some (tp1, Except.error e)) ∧
    (∀ (g : Graph) (fuel : Nat) (invokes : List GraphNode)
      (plan : List ExecutionNode) (store : Store),
      Graph.toposort g fuel invokes = some (Except.ok (plan, store)) →
      planFilled plan = true) := by
  refine ⟨?_, ?_, ?_, ?_⟩
  · intro g fuel1 fuel2 invokes e h
    simp [coreRun, h]
  · intro g fuel tp invoke rest tp2 e h
    simp [toposortInvokesLoop, pbind, h]
  · intro g fuel tp key tp1 e hg h
    simp [toposortGenerateBaseCollect, pbind, hg, Bool.false_eq_true, if_false, h]
  · intro g fuel invokes plan store h
    exact toposort_planFilled g fuel invokes plan store h

/-- The abort clauses of the planning-error theorem applied at concrete
inputs: the missing-dependency graph aborts the run with no event, the invoke
loop stops at the first failing root, the base collect passes the singleton
error through, and the empty successful plan is filled. -/
theorem planning_errors_abort_witness :
    coreRun bareGraph [missingRoot] 10 10 =
      some (Except.error (RunErr.missing keyX), []) ∧
    toposortInvokesLoop bareGraph 10 newGraphToposort [missingRoot, missingRoot] =
      some (wErrTP, Except.error (RunErr.missing keyX)) ∧
    toposortGenerateBaseCollect bareGraph 2 newGraphToposort keyX =
      some (newGraphToposort, Except.error (RunErr.missing keyX)) ∧
    planFilled [] = true := by
  refine ⟨?_, ?_, ?_, ?_⟩
  · refine planning_errors_abort.1 bareGraph 10 10 [missingRoot]
      (RunErr.missing keyX) ?_
    simp [bareGraph, missingRoot, newGraph, mkInvoke, plainSpec, keyX,
      Graph.toposort, toposortInvokesLoop, toposortGenerateGraphNode,
      toposortBaseLoop, toposortCollectLoop, toposortGenerateBaseCollect,
      toposortGenerateSingle, newGraphToposort, GraphToposort.alloc, pbind,
      extractGraphKey, slotsOf, alookup]
  · refine planning_errors_abort.2.1 bareGraph 10 newGraphToposort missingRoot
      [missingRoot] wErrTP (RunErr.missing keyX) ?_
    simp [bareGraph, missingRoot, newGraph, mkInvoke, plainSpec, keyX, wErrTP,
      toposortGenerateGraphNode, toposortBaseLoop, toposortGenerateBaseCollect,
      toposortGenerateSingle, newGraphToposort, GraphToposort.alloc, pbind,
      extractGraphKey, slotsOf, alookup]
  · exact planning_errors_abort.2.2.1 bareGraph 1 newGraphToposort keyX
      newGraphToposort (RunErr.missing keyX) rfl rfl
  · exact planning_errors_abort.2.2.2 bareGraph 1 [] [] [] rfl

/-! ## C1: decorator chain wiring -/

/-- Seeding the chain head: when a key has decorators, is not yet decorated
and has no chain head, the base collect records the undecorated provider's
collect as the head of the decoration chain. -/
theorem base_seeds_decorating (g : Graph) (fuel : Nat) (tp tp1 : GraphToposort)
    (key : GraphNodeKey) (base : ExecutionCollect)
    (hsub : (if key.group then toposortGenerateGrouped g fuel tp key
             else toposortGenerateSingle g fuel tp key) = some (tp1, Except.ok base))
    (hdec : slotsOf g.decorate key ≠ [])
    (hnotdone : alookup tp1.decorated key = none)
    (hnothead : alookup tp1.decorating key = none) :
    toposortGenerateBaseCollect g (fuel + 1) tp key =
      some ({ tp1 with decorating := aset tp1.decorating key base },
        Except.ok base) := by
  simp only [toposortGenerateBaseCollect, pbind, hsub]
  cases hslots : slotsOf g.decorate key with
  | nil => exact absurd hslots hdec
  | cons s srest => simp [hnotdone, hnothead]

/-- A decorator's decorate-marked input is wired to the current chain head:
the collect it is planned with is exactly the recorded decorating entry. -/
theorem decorator_reads_head (g : Graph) (fuel : Nat) (tp tp2 : GraphToposort)
    (spec : Spec) (c : ExecutionCollect) (hd : spec.decorate = true)
    (hmat : Materialised g tp (extractGraphKey spec))
    (h : toposortGenerateCollect g (fuel + 1) tp spec = some (tp2, Except.ok c)) :
    alookup tp2.decorating (extractGraphKey spec) = some c := by
  simp only [toposortGenerateCollect] at h
  split at h
  · simp at h
  · next tp1 e heq =>
    obtain ⟨c0, hc0, -⟩ := materialised_base_ok g fuel tp tp1
      (extractGraphKey spec) (Except.error e) hmat heq
    simp at hc0
  · next tp1 base heq =>
    simp only [hd, if_true] at h
    split at h
    · next collect heq2 =>
      simp only [Option.some.injEq, Prod.mk.injEq, Except.ok.injEq] at h
      obtain ⟨h1, h2⟩ := h
      subst h1
      subst h2
      exact heq2
    · simp at h

/-- One decoration step: planning the decorators of a key processes the slot
list in order, and after a decorator is planned the chain head becomes that
decorator's output collect before the next decorator is planned. -/
theorem dloop_step (g : Graph) (fuel : Nat) (tp tp2 : GraphToposort)
    (key : GraphNodeKey) (slot : GraphNodeOutputSlot)
    (rest : List GraphNodeOutputSlot) (r : Except RunErr Unit)
    (h : toposortDecorateLoop g (fuel + 1) tp key (slot :: rest) = some (tp2, r)) :
    (∃ tp1 e, toposortGenerateGraphNodeID g fuel tp slot.id =
        some (tp1, Except.error e) ∧ tp2 = tp1 ∧ r = Except.error e) ∨
    (∃ tp1 params, toposortGenerateGraphNodeID g fuel tp slot.id =
        some (tp1, Except.ok params) ∧
      toposortDecorateLoop g fuel { tp1 with
          decorating := aset tp1.decorating key ⟨some params, slot.index⟩ } key rest =
        some (tp2, r)) := by
  simp only [toposortDecorateLoop, pbind] at h
  split at h
  · simp at h
  · next tp1 e heq =>
    simp only [Option.some.injEq, Prod.mk.injEq] at h
    exact Or.inl ⟨tp1, e, heq, h.1.symm, h.2.symm⟩
  · next tp1 params heq =>
    exact Or.inr ⟨tp1, params, heq, h⟩

/-- After the whole decorator loop, the chain head is the last decorator's
output collect (its result buffer and its output slot index). -/
theorem dloop_last_head : ∀ (init : List GraphNodeOutputSlot) (g : Graph)
    (fuel : Nat) (tp tp2 : GraphToposort) (key : GraphNodeKey)
    (last : GraphNodeOutputSlot),
    toposortDecorateLoop g fuel tp key (init ++ [last]) = some (tp2, Except.ok ()) →
    ∃ params, alookup tp2.decorating key =
      some { result := some params, index := last.index } := by
  intro init
  induction init with
  | nil =>
    intro g fuel tp tp2 key last h
    cases fuel with
    | zero => simp [toposortDecorateLoop] at h
    | succ f =>
      simp only [List.nil_append, toposortDecorateLoop, pbind] at h
      split at h
      · simp at h
      · simp at h
      · next tp1 params heq =>
        simp only [toposortDecorateLoop, Option.some.injEq, Prod.mk.injEq] at h
        obtain ⟨h1, -⟩ := h
        subst h1
        exact ⟨params, by simp [alookup_aset_self]⟩
  | cons s init2 ih =>
    intro g fuel tp tp2 key last h
    cases fuel with
    | zero => simp [toposortDecorateLoop] at h
    | succ f =>
      simp only [List.cons_append, toposortDecorateLoop, pbind] at h
      split at h
      · simp at h
      · simp at h
      · next tp1 params heq =>
        exact ih g f _ tp2 key last h

/-- A non-decorating consumer of a decorated key is wired to the recorded
decorated collect — the output of the decoration chain. -/
theorem consumer_reads_decorated (g : Graph) (fuel : Nat) (tp tp2 : GraphToposort)
    (spec : Spec) (c : ExecutionCollect) (slot : GraphNodeOutputSlot)
    (rest : List GraphNodeOutputSlot) (hd : spec.decorate = false)
    (hmat : Materialised g tp (extractGraphKey spec))
    (hslots : slotsOf g.decorate (extractGraphKey spec) = slot :: rest)
    (h : toposortGenerateCollect g (fuel + 1) tp spec = some (tp2, Except.ok c)) :
    alookup tp2.decorated (extractGraphKey spec) = some c := by
  simp only [toposortGenerateCollect] at h
  split at h
  · simp at h
  · next tp1 e heq =>
    obtain ⟨c0, hc0, -⟩ := materialised_base_ok g fuel tp tp1
      (extractGraphKey spec) (Except.error e) hmat heq
    simp at hc0
  · next tp1 base heq =>
    simp only [hd, Bool.false_eq_true, if_false, hslots] at h
    split at h
    · next decorated heq2 =>
      simp only [Option.some.injEq, Prod.mk.injEq, Except.ok.injEq] at h
      obtain ⟨h1, h2⟩ := h
      subst h1
      subst h2
      exact heq2
    · simp only [pbind] at h
      split at h
      · simp at h
      · simp at h
      · next tp3 u heq2 =>
        cases u
        have hpres := dloop_sets_decorating (slot :: rest) g fuel tp1 tp3
          (extractGraphKey spec) (by simp) heq2
        obtain ⟨resC, hresC⟩ := Option.isSome_iff_exists.mp hpres
        simp only [hresC, Option.getD_some] at h
        simp only [Option.some.injEq, Prod.mk.injEq, Except.ok.injEq] at h
        obtain ⟨h1, h2⟩ := h
        subst h1
        subst h2
        simp [alookup_aset_self]

/-- Provider of port key 1 (`chKey`). -/
def chP : GraphNode :=
  mkProvide [] [plainSpec 1] (some "P") (some "p") [RValue.base "v"]

/-- First decorator of key 1 in insertion order. -/
def chD1 : GraphNode :=
  mkProvide [decoSpec 1] [decoSpec 1] (some "D1") (some "d1") [RValue.base "v1"]

/-- Second decorator of key 1. -/
def chD2 : GraphNode :=
  mkProvide [decoSpec 1] [decoSpec 1] (some "D2") (some "d2") [RValue.base "v2"]

/-- Consumer root of key 1. -/
def chRoot : GraphNode := mkInvoke [plainSpec 1] (some "root") (some "root")

/-- The decorator-chain graph: provider, then two decorators. -/
def chainGraph : Graph := Graph.ofNodes [chP, chD1, chD2]

/-- The singleton key of port 1. -/
def chKey : GraphNodeKey := { typ := 1, name := "", group := false }

/-- Planner state used to exercise the chain lemmas: providers 0 and 2 are
already materialised with output buffers 2 and 6. -/
def wChTP : GraphToposort := { newGraphToposort with outputs := [(0, 2), (2, 6)] }

set_option maxHeartbeats 4000000 in
/-- C1: decorator chain wiring. When a port key has a non-decorating provider
and decorator output slots, the base collect seeds the chain head with the
undecorated provider's collect; a decorator's decorate-marked input is planned
against the current chain head; after each decorator of the slot list (graph
insertion order) is planned, the head becomes that decorator's output collect,
so each subsequent decorator reads the previous one's output; after the whole
loop the head — and hence the recorded decorated collect that every
non-decorating consumer of the key receives — is the last decorator's output
collect. Concretely, for provider P and decorators D1, D2 of key 1 in
insertion order, the plan wires P's output buffer 2 into D1's input collect,
D1's output buffer 4 into D2's input collect, and D2's output buffer 6 into
the consumer's input collect. -/
theorem decorator_chain_wiring :
    (∀ (g : Graph) (fuel : Nat) (tp tp1 : GraphToposort) (key : GraphNodeKey)
      (base : ExecutionCollect),
      (if key.group then toposortGenerateGrouped g fuel tp key
       else toposortGenerateSingle g fuel tp key) = some (tp1, Except.ok base) →
      slotsOf g.decorate key ≠ [] →
      alookup tp1.decorated key = none →
      alookup tp1.decorating key = none →
      toposortGenerateBaseCollect g (fuel + 1) tp key =
        some ({ tp1 with decorating := aset tp1.decorating key base },
          Except.ok base)) ∧
    (∀ (g : Graph) (fuel : Nat) (tp tp2 : GraphToposort) (spec : Spec)
      (c : ExecutionCollect), spec.decorate = true →
      Materialised g tp (extractGraphKey spec) →
      toposortGenerateCollect g (fuel + 1) tp spec = some (tp2, Except.ok c) →
      alookup tp2.decorating (extractGraphKey spec) = some c) ∧
    (∀ (g : Graph) (fuel : Nat) (tp tp2 : GraphToposort) (key : GraphNodeKey)
      (slot : GraphNodeOutputSlot) (rest : List GraphNodeOutputSlot)
      (r : Except RunErr Unit),
      toposortDecorateLoop g (fuel + 1) tp key (slot :: rest) = some (tp2, r) →
      (∃ tp1 e, toposortGenerateGraphNodeID g fuel tp slot.id =
          some (tp1, Except.error e) ∧ tp2 = tp1 ∧ r = Except.error e) ∨
      (∃ tp1 params, toposortGenerateGraphNodeID g fuel tp slot.id =
          some (tp1, Except.ok params) ∧
        toposortDecorateLoop g fuel { tp1 with
            decorating := aset tp1.decorating key ⟨some params, slot.index⟩ }
          key rest = some (tp2, r))) ∧
    (∀ (init : List GraphNodeOutputSlot) (g : Graph) (fuel : Nat)
      (tp tp2 : GraphToposort) (key : GraphNodeKey) (last : GraphNodeOutputSlot),
      toposortDecorateLoop g fuel tp key (init ++ [last]) =
        some (tp2, Except.ok ()) →
      ∃ params, alookup tp2.decorating key =
        some { result := some params, index := last.index }) ∧
    (∀ (g : Graph) (fuel : Nat) (tp tp2 : GraphToposort) (spec : Spec)
      (c : ExecutionCollect) (slot : GraphNodeOutputSlot)
      (rest : List GraphNodeOutputSlot), spec.decorate = false →
      Materialised g tp (extractGraphKey spec) →
      slotsOf g.decorate (extractGraphKey spec) = slot :: rest →
      toposortGenerateCollect g (fuel + 1) tp spec = some (tp2, Except.ok c) →
      alookup tp2.decorated (extractGraphKey spec) = some c) ∧
    planOf (chainGraph.toposort 60 [chRoot]) =
      [ExecutionNode.collectParam [] 1,
       ExecutionNode.user 1 2 chP.value,
       ExecutionNode.collectParam [{ result := some 2, index := 0 }] 3,
       ExecutionNode.user 3 4 chD1.value,
       ExecutionNode.collectParam [{ result := some 4, index := 0 }] 5,
       ExecutionNode.user 5 6 chD2.value,
       ExecutionNode.collectParam [{ result := some 6, index := 0 }] 0,
       ExecutionNode.user 0 7 chRoot.value] := by
  refine ⟨fun g fuel tp tp1 key base hsub hdec hnd hnh =>
      base_seeds_decorating g fuel tp tp1 key base hsub hdec hnd hnh,
    fun g fuel tp tp2 spec c hd hmat h =>
      decorator_reads_head g fuel tp tp2 spec c hd hmat h,
    fun g fuel tp tp2 key slot rest r h =>
      dloop_step g fuel tp tp2 key slot rest r h,
    fun init g fuel tp tp2 key last h =>
      dloop_last_head init g fuel tp tp2 key last h,
    fun g fuel tp tp2 spec c slot rest hd hmat hslots h =>
      consumer_reads_decorated g fuel tp tp2 spec c slot rest hd hmat hslots h,
    ?_⟩
  simp [chainGraph, chP, chD1, chD2, chRoot, chKey,
    Graph.ofNodes, Graph.insert, insertOutputs, appendSlot, slotsOf, alookup, aset,
    newGraph, mkProvide, mkInvoke, plainSpec, decoSpec,
    Graph.toposort, toposortInvokesLoop, toposortGenerateGraphNode, toposortBaseLoop,
    toposortCollectLoop, toposortGenerateBaseCollect, toposortGenerateCollect,
    toposortGenerateSingle, toposortGenerateGrouped, toposortGroupedLoop,
    toposortDecorateLoop, toposortGenerateGraphNodeID, finishGenerateID,
    newGraphToposort, GraphToposort.alloc, pbind, extractGraphKey, pinsert, perase,
    Graph.nodeString, GraphNode.displayString, aerase, ExecutionCollect.zero, planOf]

/-- The chain-wiring clauses applied at concrete inputs: seeding the head with
the provider's collect, a decorator reading the seeded head, and the loop
leaving the last decorator's collect as head. -/
theorem decorator_chain_wiring_witness :
    toposortGenerateBaseCollect chainGraph 3 wChTP chKey =
      some ({ wChTP with
          decorating := aset wChTP.decorating chKey ⟨some 2, 0⟩ },
        Except.ok ⟨some 2, 0⟩) ∧
    alookup (aset wChTP.decorating chKey ⟨some 2, 0⟩)
      (extractGraphKey (decoSpec 1)) = some ⟨some 2, 0⟩ ∧
    (∃ params, alookup (aset wChTP.decorating chKey ⟨some 6, 0⟩) chKey =
      some { result := some params,
             index := (⟨2, 0⟩ : GraphNodeOutputSlot).index }) := by
  have hmat : Materialised chainGraph wChTP (extractGraphKey (decoSpec 1)) := by
    refine ⟨fun hgt => ?_, fun _ => ?_⟩
    · simp [extractGraphKey, decoSpec] at hgt
    · refine ⟨⟨0, 0⟩, ?_, ?_, ?_⟩
      · simp [chainGraph, chP, chD1, chD2, Graph.ofNodes, Graph.insert,
          insertOutputs, appendSlot, slotsOf, alookup, aset, newGraph,
          mkProvide, plainSpec, decoSpec, extractGraphKey]
      · simp [wChTP, newGraphToposort]
      · rfl
  refine ⟨?_, ?_, ?_⟩
  · exact decorator_chain_wiring.1 chainGraph 2 wChTP wChTP chKey
      ⟨some 2, 0⟩ rfl (by simp [chainGraph, chP, chD1, chD2, Graph.ofNodes,
        Graph.insert, insertOutputs, appendSlot, slotsOf, alookup, aset,
        newGraph, mkProvide, mkInvoke, plainSpec, decoSpec, chKey,
        extractGraphKey]) rfl rfl
  · exact decorator_chain_wiring.2.1 chainGraph 3 wChTP
      { wChTP with decorating := aset wChTP.decorating chKey ⟨some 2, 0⟩ }
      (decoSpec 1) ⟨some 2, 0⟩ rfl hmat rfl
  · exact decorator_chain_wiring.2.2.2.1 [] chainGraph 2 wChTP
      { wChTP with decorating := aset wChTP.decorating chKey ⟨some 6, 0⟩ }
      chKey ⟨2, 0⟩ rfl
